import Mathlib

/-!
Verification of the Planeet planning service's itinerary generation engine.

This file shallowly embeds the decision logic of
`planning_service/app/services/time_calculator.py`,
`planning_service/app/services/plan_generator.py` and
`planning_service/app/services/personalization.py` in Lean, and proves the
spec's testable properties about the embedding.

Modelling conventions:
- Python `datetime` values are modelled as whole minutes on an absolute time
  line (`ℕ`); the request validator
  (`plan_request.py`, `validate_start_time_15_minute_intervals`) guarantees
  seconds and microseconds are zero, and all arithmetic in the engine adds
  whole minutes, so minute granularity is lossless for validated requests.
- Python floats are modelled as `ℚ`.  Where CPython float rounding is
  observable it is reproduced exactly: `int(base_duration * factor)` by the
  integer formulas at `get_venue_duration` (verified case by case over the
  duration table), and `int(len(venues) * 0.7)` bit-exactly by `intMul07`,
  which rounds the exact rational product with the double nearest 0.7 to the
  nearest representable double (ties to even) before truncating.
- Haversine distance (`calculate_distance`) uses transcendental functions and
  is kept abstract: every function that needs it takes a
  `dist : Location → Location → ℚ` parameter.  The only fact about it the
  spec relies on is symmetry, which appears as an explicit hypothesis.
- `random.shuffle` / `random.choice` are modelled by oracle parameters
  (`shuffles`, `picks`); theorems quantify over all oracles, hence cover
  every concrete stream of random draws.
- Python dicts are modelled as association lists in insertion order.
-/

/-- Geographic coordinates of a venue (`venue["location"]`). -/
structure Location where
  latitude : ℚ
  longitude : ℚ
deriving DecidableEq, Repr

/-- A candidate venue record as consumed by the planning engine.  Fields not
read by the embedded logic (links, amenities, opening hours — the latter only
feed a log warning) are omitted. -/
structure Venue where
  id : String
  name : String
  venue_type : String
  location : Location
  rating : Option ℚ := none
  price_range : Option String := none
deriving DecidableEq, Repr

/-- Structural lower-casing of a string.  Extensionally equal to Python's
`str.lower()` on the ASCII category names used by the engine; defined by a
structural `List.map` so that it reduces in the kernel. -/
def strLower (s : String) : String := String.mk (s.data.map Char.toLower)

/-- The immutable plan request configuration (`app/models/plan_request.py`,
fields used by the engine).  Pydantic enforces `group_size ≥ 1` and
`1 ≤ max_venues ≤ 20`; `date` is the validated start instant in minutes. -/
structure PlanRequest where
  plan_id : String
  user_id : String
  date : ℕ
  group_size : ℕ
  max_venues : ℕ
deriving Repr

/-! ## Time calculator (`time_calculator.py`) -/

/-- `TimeCalculator.VENUE_DURATIONS` lookup with the `"other"` default,
as used via `.get(venue_type.lower(), VENUE_DURATIONS["other"])`. -/
def VENUE_DURATIONS (venue_type : String) : ℕ :=
  if venue_type = "restaurant" then 90
  else if venue_type = "bar" then 75
  else if venue_type = "cafe" then 45
  else if venue_type = "museum" then 120
  else if venue_type = "theater" then 180
  else if venue_type = "park" then 60
  else if venue_type = "shopping_center" then 90
  else if venue_type = "sports_facility" then 120
  else if venue_type = "spa" then 90
  else 60

/-- `TimeCalculator.TRANSITION_BUFFER`. -/
def TRANSITION_BUFFER : ℕ := 15

/-- `TimeCalculator.get_venue_duration`.  The source computes
`int(base_duration * factor)` with float factors 1.2 / 1.1 / 1.0; for every
value in `VENUE_DURATIONS` the CPython float product truncates to exactly
`base * 6 / 5` resp. `base * 11 / 10` under integer (floor) division, which is
what is written here. -/
def get_venue_duration (venue_type : String) (group_size : ℕ) : ℕ :=
  let base := VENUE_DURATIONS (strLower venue_type)
  if group_size > 4 then base * 6 / 5
  else if group_size > 2 then base * 11 / 10
  else base

/-- `TimeCalculator.round_time_to_15_minutes` on absolute minutes.  The source
computes `round(minutes / 15) * 15` on the minute-of-hour; since the minute is
an integer the half-to-even tie case of Python's `round` never arises, and the
result rounds down exactly when `minutes % 15 ≤ 7`.  The hour-overflow branch
(`rounded_minutes == 60`) is the `+ 60` carry, which absolute minutes handle
automatically. -/
def round_time_to_15_minutes (t : ℕ) : ℕ :=
  t - t % 60 + ((t % 60 + 7) / 15) * 15

/-- `TimeCalculator.calculate_travel_time`.  `walking` is the
`transportation_mode == "walking"` test; `int(time_hours * 60)` truncates
toward zero, which is `Int.toNat ∘ Int.floor` on the positive branch. -/
def calculate_travel_time (distance_km : ℚ) (walking : Bool) : ℕ :=
  if distance_km ≤ 0 then 0
  else
    let time_hours := if walking then distance_km / (9/2) else distance_km / 30
    max (Int.toNat ⌊time_hours * 60⌋) 5

/-- A stop: a venue enriched with the timing fields added by
`calculate_plan_timing` (`start_time` / `end_time` as absolute minutes). -/
structure TimedVenue where
  venue : Venue
  start_time : ℕ
  end_time : ℕ
  duration_minutes : ℕ
  travel_time_from_previous : ℕ
  travel_distance_km : ℚ
deriving DecidableEq, Repr

/-- The loop body of `TimeCalculator.calculate_plan_timing`: walks the venue
list carrying the previous venue (`venues[i-1]`) and `current_time`.  For
`i > 0` the code advances `current_time` by travel plus the 15-minute buffer
and rounds to the grid; the end time is the rounded start plus duration,
rounded again, and the recorded duration is the difference of the rounded
times. -/
def planTimingAux (dist : Location → Location → ℚ) (group_size : ℕ) :
    Option Venue → ℕ → List Venue → List TimedVenue
  | _, _, [] => []
  | prev, current_time, v :: rest =>
    let duration_minutes := get_venue_duration v.venue_type group_size
    let step : ℕ × ℚ × ℕ :=
      match prev with
      | none => (0, 0, current_time)
      | some p =>
        let d := dist p.location v.location
        let tm := calculate_travel_time d (decide (d ≤ 2))
        (tm, d, round_time_to_15_minutes (current_time + tm + TRANSITION_BUFFER))
    let startT := step.2.2
    let endT := round_time_to_15_minutes (startT + duration_minutes)
    { venue := v, start_time := startT, end_time := endT,
      duration_minutes := endT - startT,
      travel_time_from_previous := step.1,
      travel_distance_km := step.2.1 } ::
      planTimingAux dist group_size (some v) endT rest

/-- `TimeCalculator.calculate_plan_timing`. -/
def calculate_plan_timing (dist : Location → Location → ℚ) (venues : List Venue)
    (start_datetime : ℕ) (group_size : ℕ) : List TimedVenue :=
  planTimingAux dist group_size none start_datetime venues

/-- The emitted time falls on the 15-minute grid
(minute component in `{0, 15, 30, 45}`). -/
def onGrid (t : ℕ) : Prop :=
  t % 60 = 0 ∨ t % 60 = 15 ∨ t % 60 = 30 ∨ t % 60 = 45

instance (t : ℕ) : Decidable (onGrid t) := by
  unfold onGrid
  infer_instance

/-! ## Sequencer / optimizer (`time_calculator.py`, ordering functions) -/

/-- `TimeCalculator.VENUE_TYPE_PRIORITIES` lookup with default 5. -/
def VENUE_TYPE_PRIORITIES (t : String) : ℕ :=
  if t = "cafe" then 1
  else if t = "museum" then 2
  else if t = "park" then 3
  else if t = "shopping_center" then 4
  else if t = "sports_facility" then 5
  else if t = "spa" then 6
  else if t = "restaurant" then 7
  else if t = "theater" then 8
  else if t = "bar" then 9
  else 5

/-- The `in_range` closure inside `calculate_time_appropriateness`: interval
membership with wrap-around past midnight when `a > b`. -/
def inTimeRange (hour a b : ℕ) : Bool :=
  if a ≤ b then decide (a ≤ hour ∧ hour ≤ b) else decide (a ≤ hour ∨ hour ≤ b)

/-- The `time_appropriateness` table of `calculate_time_appropriateness`:
(perfect, good) hour ranges per venue type, with the default entry.  The
"poor" ranges in the source are never read by the code path. -/
def appropriatenessRanges (venue_type : String) : (ℕ × ℕ) × (ℕ × ℕ) :=
  if venue_type = "cafe" then ((7, 11), (11, 16))
  else if venue_type = "museum" then ((10, 15), (9, 17))
  else if venue_type = "park" then ((8, 18), (6, 20))
  else if venue_type = "restaurant" then ((12, 14), (18, 22))
  else if venue_type = "bar" then ((19, 24), (17, 2))
  else ((9, 21), (8, 22))

/-- `TimeCalculator.calculate_time_appropriateness` (the hour is the
hour-of-day of the planned instant). -/
def calculate_time_appropriateness (venue_type : String) (t : ℕ) : ℚ :=
  let hour := t / 60 % 24
  let r := appropriatenessRanges venue_type
  if inTimeRange hour r.1.1 r.1.2 then 0
  else if inTimeRange hour r.2.1 r.2.2 then 1
  else 2

/-- `TimeCalculator.get_venue_priority_score`:
`type_priority + time_score * 0.3`. -/
def get_venue_priority_score (v : Venue) (t : ℕ) : ℚ :=
  (VENUE_TYPE_PRIORITIES (strLower v.venue_type) : ℚ) +
    calculate_time_appropriateness (strLower v.venue_type) t * (3/10)

/-- `TimeCalculator.calculate_total_travel_time`: the sum of pair distances
along consecutive venues (the source calls `calculate_distance` per pair). -/
def calculate_total_travel_time (dist : Location → Location → ℚ) :
    List Venue → ℚ
  | [] => 0
  | [_] => 0
  | a :: b :: rest =>
    dist a.location b.location + calculate_total_travel_time dist (b :: rest)

/-- `TimeCalculator.calculate_type_conflict_penalty`:
`abs(p1 - p2) * 0.3` when the second venue's day-part priority is earlier. -/
def calculate_type_conflict_penalty (v1 v2 : Venue) : ℚ :=
  let p1 := VENUE_TYPE_PRIORITIES (strLower v1.venue_type)
  let p2 := VENUE_TYPE_PRIORITIES (strLower v2.venue_type)
  if p2 < p1 then ((p1 : ℚ) - (p2 : ℚ)) * (3/10) else 0

/-- One `for i in range(len(optimized) - 1)` pass of
`apply_travel_optimization`, with its in-place adjacent swap semantics: after
a swap at position `i` the next comparison sees the moved element.  Returns
the updated list and the `improved` flag. -/
def optPass (dist : Location → Location → ℚ) : List Venue → List Venue × Bool
  | [] => ([], false)
  | [v] => ([v], false)
  | a :: b :: rest =>
    let current_travel := calculate_total_travel_time dist [a, b]
    let swapped_travel := calculate_total_travel_time dist [b, a]
    let travel_savings_km := current_travel - swapped_travel
    let pen := calculate_type_conflict_penalty a b
    if travel_savings_km > 1/2 ∧ travel_savings_km > pen then
      (b :: (optPass dist (a :: rest)).1, true)
    else
      let r := optPass dist (b :: rest)
      (a :: r.1, r.2)
termination_by l => l.length

/-- The `while improved:` loop of `apply_travel_optimization`, with explicit
fuel.  The Boolean is `true` when the loop exited through its own condition
(a pass with no improvement) and `false` only when the fuel ran out first —
so `(optLoop …).2 = true` states that the Python loop terminates within the
given number of passes. -/
def optLoop (dist : Location → Location → ℚ) :
    ℕ → List Venue → List Venue × Bool
  | 0, vs => (vs, false)
  | fuel + 1, vs =>
    let r := optPass dist vs
    if r.2 then optLoop dist fuel r.1 else (r.1, true)

/-- `TimeCalculator.apply_travel_optimization` (lists of length ≤ 2 are
returned unchanged by the early guard). -/
def apply_travel_optimization (dist : Location → Location → ℚ) (fuel : ℕ)
    (venues : List Venue) : List Venue :=
  if venues.length ≤ 2 then venues else (optLoop dist fuel venues).1

/-- Phase A of `optimize_venue_order`: the stable ascending sort of the
venues by priority score (Python `list.sort(key=...)` is stable; so is
`List.insertionSort` with a total `≤` relation). -/
def sortByPriority (start_time : ℕ) (venues : List Venue) : List Venue :=
  List.insertionSort
    (fun a b => get_venue_priority_score a start_time ≤ get_venue_priority_score b start_time)
    venues

/-- `TimeCalculator.optimize_venue_order` (the generator always passes the
request's start instant, so the `start_time is None` default branch is not
exercised). -/
def optimize_venue_order (dist : Location → Location → ℚ) (fuel : ℕ)
    (venues : List Venue) (start_time : ℕ) : List Venue :=
  if venues.length ≤ 1 then venues
  else apply_travel_optimization dist fuel (sortByPriority start_time venues)

/-! ## Plan assembler (`plan_generator.py`) -/

/-- An itinerary as assembled by `_create_single_plan` (the fields the claims
are about; the serialization-only summary fields are projections of
`suggested_venues` and are not modelled separately). -/
structure Plan where
  plan_id : String
  user_id : String
  suggested_venues : List TimedVenue
  venue_types_included : List String
deriving DecidableEq, Repr

/-- `PlanGenerator._create_single_plan`: order the venues, then compute the
timing; `suggested_venues` carries one stop per venue in optimized order. -/
def _create_single_plan (dist : Location → Location → ℚ) (fuel : ℕ)
    (venues : List Venue) (venue_types : List String) (plan_id : String)
    (req : PlanRequest) : Plan :=
  let optimized := optimize_venue_order dist fuel venues req.date
  let timed := calculate_plan_timing dist optimized req.date req.group_size
  { plan_id := plan_id, user_id := req.user_id,
    suggested_venues := timed, venue_types_included := venue_types }

/-- Placeholder venue used to totalize indexed access; every indexed access
in the embedding is in bounds, as the proofs show. -/
def emptyVenue : Venue :=
  { id := "", name := "", venue_type := "", location := ⟨0, 0⟩ }

/-- `venues_by_type[venue_type]` on the association-list model of the dict. -/
def lookupBucket (vbt : List (String × List Venue)) (t : String) : List Venue :=
  ((vbt.find? (fun p => p.1 == t)).map Prod.snd).getD []

/-- The mutable state threaded through assembly: the `used_venues` id set
(as a list, most recent first) and the position in the random-draw stream. -/
structure SelState where
  used_venues : List String
  ctr : ℕ
deriving Repr

/-- The venue-selection loop of the three windowed plans in
`_generate_multiple_plans`: iterates `selected_types`, skips categories
already used in this plan, filters each bucket against the global used set,
draws `random.choice` from the top `min 3` available venues (`picks` oracle),
marks the id used immediately, and breaks once `max_venues` stops exist.
Returns (venues_for_plan, types_used, state). -/
def selectLoop (picks : ℕ → ℕ) (vbt : List (String × List Venue))
    (max_venues : ℕ) :
    List String → List String → ℕ → SelState →
    List Venue × List String × SelState
  | [], _, _, s => ([], [], s)
  | t :: ts, cats, cnt, s =>
    if t ∈ cats then selectLoop picks vbt max_venues ts cats cnt s
    else
      let available := (lookupBucket vbt t).filter
        (fun v => decide (v.id ∉ s.used_venues))
      if available.isEmpty then selectLoop picks vbt max_venues ts cats cnt s
      else
        let selection_count := min 3 available.length
        let top := available.take selection_count
        let v := top.getD (picks s.ctr % top.length) emptyVenue
        let s' : SelState := ⟨v.id :: s.used_venues, s.ctr + 1⟩
        if max_venues ≤ cnt + 1 then ([v], [t], s')
        else
          let r := selectLoop picks vbt max_venues ts (t :: cats) (cnt + 1) s'
          (v :: r.1, t :: r.2.1, r.2.2)

/-- The category-window strategy of `_generate_multiple_plans` for plan
indices 0, 1, 2 (`venue_types[:max_venues]`, the middle window, and
`venue_types[-max_venues:]`).  On ℕ these slices agree with Python's for
`max_venues ≤ len(venue_types)`, the region admitted by the validation in
`generate_multiple_plans`; Python's `[-0:]` quirk (the full list) is kept. -/
def windowTypes (venue_types : List String) (max_venues : ℕ) : ℕ → List String
  | 0 => venue_types.take max_venues
  | 1 => (venue_types.drop ((venue_types.length - max_venues) / 2)).take max_venues
  | _ =>
    if max_venues = 0 then venue_types
    else venue_types.drop (venue_types.length - max_venues)

/-- The `for plan_index in range(3)` loop of `_generate_multiple_plans`
(called with `[0, 1, 2]`): per index, shuffle the window (`shuffles` oracle
stands for the seeded `random.shuffle`), run the selection loop, and append a
plan when any venue was selected. -/
def mainPlans (dist : Location → Location → ℚ) (fuel : ℕ) (picks : ℕ → ℕ)
    (shuffles : ℕ → List String → List String)
    (vbt : List (String × List Venue)) (req : PlanRequest) :
    List ℕ → SelState → List Plan × SelState
  | [], s => ([], s)
  | p :: ps, s =>
    let venue_types := vbt.map Prod.fst
    let selected_types := shuffles p (windowTypes venue_types req.max_venues p)
    let r := selectLoop picks vbt req.max_venues selected_types [] 0 s
    let rest := mainPlans dist fuel picks shuffles vbt req ps r.2.2
    if r.1.isEmpty then rest
    else
      let plan := _create_single_plan dist fuel r.1 r.2.1
        (req.plan_id ++ "-plan" ++ toString (p + 1)) req
      (plan :: rest.1, rest.2)

/-- The per-plan body of the fallback `while len(all_plans) < 3` loop:
iterate all buckets, and add one unused venue per category while fewer than
`max_venues` stops exist; `random.choice(unused)` is drawn from the full
unused list only when it has more than one element. -/
def fallbackLoop (picks : ℕ → ℕ) (max_venues : ℕ) :
    List (String × List Venue) → List String → ℕ → SelState →
    List Venue × List String × SelState
  | [], _, _, s => ([], [], s)
  | (t, vs) :: rest, cats, cnt, s =>
    if t ∈ cats then fallbackLoop picks max_venues rest cats cnt s
    else
      let unused := vs.filter (fun v => decide (v.id ∉ s.used_venues))
      if !unused.isEmpty ∧ cnt < max_venues then
        let vc : Venue × ℕ :=
          if 1 < unused.length
          then (unused.getD (picks s.ctr % unused.length) emptyVenue, s.ctr + 1)
          else (unused.getD 0 emptyVenue, s.ctr)
        let s' : SelState := ⟨vc.1.id :: s.used_venues, vc.2⟩
        let r := fallbackLoop picks max_venues rest (t :: cats) (cnt + 1) s'
        (vc.1 :: r.1, t :: r.2.1, r.2.2)
      else fallbackLoop picks max_venues rest cats cnt s

/-- The fallback `while len(all_plans) < 3` loop.  Every iteration either
appends exactly one plan or breaks, so `3 - len(all_plans)` iterations of
fuel reproduce the loop exactly; `nplans` is `len(all_plans)`, used for the
generated plan id. -/
def fallbackWhile (dist : Location → Location → ℚ) (fuel : ℕ) (picks : ℕ → ℕ)
    (vbt : List (String × List Venue)) (req : PlanRequest) :
    ℕ → ℕ → SelState → List Plan × SelState
  | 0, _, s => ([], s)
  | f + 1, nplans, s =>
    let r := fallbackLoop picks req.max_venues vbt [] 0 s
    if r.1.isEmpty then ([], r.2.2)
    else
      let plan := _create_single_plan dist fuel r.1 r.2.1
        (req.plan_id ++ "-plan" ++ toString (nplans + 1)) req
      let rest := fallbackWhile dist fuel picks vbt req f (nplans + 1) r.2.2
      (plan :: rest.1, rest.2)

/-- `PlanGenerator._generate_multiple_plans`: three windowed plans, then the
fallback loop on the remaining inventory, then `all_plans[:3]`.  The
`used_venues` set starts empty and is threaded through everything. -/
def _generate_multiple_plans (dist : Location → Location → ℚ) (fuel : ℕ)
    (picks : ℕ → ℕ) (shuffles : ℕ → List String → List String)
    (vbt : List (String × List Venue)) (req : PlanRequest) : List Plan :=
  let m := mainPlans dist fuel picks shuffles vbt req [0, 1, 2] ⟨[], 0⟩
  let fb := fallbackWhile dist fuel picks vbt req (3 - m.1.length) m.1.length m.2
  (m.1 ++ fb.1).take 3

/-- Floor of the base-2 logarithm, driven by explicit fuel
(`log2fuel fuel n` is exact whenever `n ≤ fuel`, so `log2fuel n n` always is);
structural so that the kernel can evaluate it. -/
def log2fuel : ℕ → ℕ → ℕ
  | 0, _ => 0
  | fuel + 1, n => if 2 ≤ n then log2fuel fuel (n / 2) + 1 else 0

/-- Round `p` to the nearest multiple of `2 ^ e`, ties to the even multiple
(IEEE-754 round-nearest-even on the significand grid), returning the
multiple's index. -/
def roundMulTiesEven (p : ℕ) (e : ℕ) : ℕ :=
  let q := p / 2 ^ e
  let r := p % 2 ^ e
  if 2 * r < 2 ^ e then q
  else if 2 ^ e < 2 * r then q + 1
  else if q % 2 = 0 then q else q + 1

/-- Bit-exact CPython `int(n * 0.7)` for every length `n < 2 ^ 53` a Python
list can have.  The double literal `0.7` is exactly
`3152519739159347 / 2 ^ 52`; the exact product `p / 2 ^ 52` with
`p = 3152519739159347 * n` is rounded to the nearest double — the nearest
multiple of `2 ^ (⌊log₂ p⌋ - 52)`, ties to even — and `int` truncates the
(positive) result toward zero.  In particular `intMul07 10 = 7`: the product
`10 * 0.7` is a tie that rounds up to exactly `7.0` (see the spot-check
lemmas below). -/
def intMul07 (n : ℕ) : ℕ :=
  let p := 3152519739159347 * n
  let e := log2fuel p p - 52
  roundMulTiesEven p e * 2 ^ e / 2 ^ 52

/-- Spot check anchoring `intMul07` to CPython: `int(10 * 0.7) = 7` (the
default bucket size returned per venue type is 10). -/
lemma intMul07_ten : intMul07 10 = 7 := by decide

/-- Spot check: `int(20 * 0.7) = 14` (another round-to-even tie). -/
lemma intMul07_twenty : intMul07 20 = 14 := by decide

/-- Spot check: `int(90 * 0.7) = 62` — the first multiple of 10 where the
product rounds below the exact value `63`. -/
lemma intMul07_ninety : intMul07 90 = 62 := by decide

/-- Spot check: `int(3 * 0.7) = 2` (`3 * 0.7` is `2.0999999999999996`). -/
lemma intMul07_three : intMul07 3 = 2 := by decide

/-- `PlanGenerator._apply_controlled_randomness`: split at
`max(1, int(len(venues) * 0.7))` — with `int(len(venues) * 0.7)` modelled
bit-exactly by `intMul07` — and shuffle the two slices independently
(`shuffleA`, `shuffleB` oracles). -/
def _apply_controlled_randomness (shuffleA shuffleB : List Venue → List Venue)
    (venues : List Venue) : List Venue :=
  if venues.isEmpty then venues
  else
    let top_count := max 1 (intMul07 venues.length)
    shuffleA (venues.take top_count) ++ shuffleB (venues.drop top_count)

/-- `PlanGenerator.generate_multiple_plans` (the decision core): validate
`max_venues` against the number of offered categories, raising a
caller-visible `ValueError` before anything else runs; otherwise apply
controlled randomness to each bucket and assemble the plans.  The response
envelope around `plans` is not modelled; the `Except` value is the
raise/return outcome. -/
def generate_multiple_plans (dist : Location → Location → ℚ) (fuel : ℕ)
    (picks : ℕ → ℕ) (shuffles : ℕ → List String → List String)
    (bucketShuffles : String → (List Venue → List Venue) × (List Venue → List Venue))
    (vbt : List (String × List Venue)) (req : PlanRequest) :
    Except String (List Plan) :=
  if vbt.length < req.max_venues then
    Except.error "max_venues cannot be greater than number of venue types"
  else
    let vbt2 := vbt.map (fun p =>
      (p.1, _apply_controlled_randomness (bucketShuffles p.1).1 (bucketShuffles p.1).2 p.2))
    Except.ok (_generate_multiple_plans dist fuel picks shuffles vbt2 req)

/-- The venue ids of a plan's stops, in order. -/
def idsOfPlan (p : Plan) : List String :=
  p.suggested_venues.map (fun tv => tv.venue.id)

/-! ## Personalization (`personalization.py`) -/

/-- User preference record (`user_preferences`); only the preferred price
range is read by the scorer. -/
structure UserPrefs where
  preferred_price_range : Option String := none
deriving DecidableEq, Repr

/-- Rating-history lookup (`venue_id in user_rating_history` /
`user_rating_history[venue_id]` on the association-list dict model). -/
def lookupRating (h : List (String × ℚ)) (venue_id : String) : Option ℚ :=
  (h.find? (fun p => p.1 == venue_id)).map Prod.snd

/-- `PlanningPersonalizationService._filter_highly_rated_venues`: keep only
entries rated ≥ 4.0, in insertion order. -/
def _filter_highly_rated_venues (h : List (String × ℚ)) : List (String × ℚ) :=
  h.filter (fun p => decide ((4:ℚ) ≤ p.2))

/-- The `venue_id_to_type` dict of `_calculate_type_preferences`: built by
iterating the buckets in order with later writes overwriting earlier ones, so
an id maps to the last bucket (in dict order) containing it. -/
def venueIdToType (vbt : List (String × List Venue)) (venue_id : String) :
    Option String :=
  (vbt.reverse.find? (fun p => p.2.any (fun v => v.id == venue_id))).map Prod.fst

/-- The `type_ratings[venue_type]` accumulator of
`_calculate_type_preferences`: the sum of the (already filtered) historical
ratings whose venue id maps to the given type. -/
def typeRatingSum (vbt : List (String × List Venue)) (h : List (String × ℚ))
    (t : String) : ℚ :=
  (h.filter (fun p => venueIdToType vbt p.1 == some t)).foldl
    (fun acc p => acc + p.2) 0

/-- The `type_counts[venue_type]` accumulator of
`_calculate_type_preferences`. -/
def typeRatingCount (vbt : List (String × List Venue)) (h : List (String × ℚ))
    (t : String) : ℕ :=
  (h.filter (fun p => venueIdToType vbt p.1 == some t)).length

/-- `PlanningPersonalizationService._calculate_type_preferences`: per offered
category, the average of the qualifying historical ratings normalized from
1–5 to 0–1, and the neutral 0.5 when no qualifying history exists. -/
def _calculate_type_preferences (h : List (String × ℚ))
    (vbt : List (String × List Venue)) : List (String × ℚ) :=
  vbt.map (fun p =>
    (p.1,
      if typeRatingCount vbt h p.1 = 0 then 1/2
      else ((typeRatingSum vbt h p.1 / (typeRatingCount vbt h p.1 : ℚ)) - 1) / 4))

/-- `PlanningPersonalizationService._calculate_price_compatibility`.  A price
string outside the `price_mapping` keys gets level 2, which also covers a
JSON-null `price_range` (Python's `dict.get` default). -/
def _calculate_price_compatibility (venue : Venue)
    (user_preferences : Option UserPrefs) : ℚ :=
  match user_preferences with
  | none => 1/2
  | some prefs =>
    let price_level := fun (s : String) =>
      if s = "$" then (1:ℤ) else if s = "$$" then 2 else if s = "$$$" then 3 else 2
    let venue_level := price_level (venue.price_range.getD "$$")
    let preferred_level := price_level (prefs.preferred_price_range.getD "$$")
    if venue_level = preferred_level then 1
    else if (venue_level - preferred_level).natAbs = 1 then 7/10
    else 3/10

/-- `PlanningPersonalizationService._calculate_venue_score`: the weighted sum
of the five components, clamped to [0, 1].  The weights 0.40 / 0.25 / 0.15 /
0.10 / 0.10 are written as exact rationals.  `venue.get("rating", 3.0)` with
the Python truthiness test is modelled by `Option.getD` plus the `≠ 0`
branch (a venue rating of 0 is falsy and takes the neutral path). -/
def _calculate_venue_score (venue : Venue) (user_rating_history : List (String × ℚ))
    (type_preferences : List (String × ℚ)) (venue_type : String)
    (user_preferences : Option UserPrefs) : ℚ :=
  let s1 :=
    match lookupRating user_rating_history venue.id with
    | some user_rating => (user_rating - 1) / 4 * (40/100)
    | none => (5/10) * (40/100)
  let venue_rating := venue.rating.getD 3
  let s2 :=
    if venue_rating ≠ 0 then (venue_rating - 1) / 4 * (25/100)
    else (5/10) * (25/100)
  let type_preference :=
    ((type_preferences.find? (fun p => p.1 == venue_type)).map Prod.snd).getD (1/2)
  let s3 := type_preference * (15/100)
  let s4 := _calculate_price_compatibility venue user_preferences * (10/100)
  let s5 :=
    if (lookupRating user_rating_history venue.id).isNone then (7/10) * (10/100)
    else (3/10) * (10/100)
  min 1 (max 0 (s1 + s2 + s3 + s4 + s5))

/-- The per-venue scoring pipeline of
`PlanningPersonalizationService.personalize_venues`: filter the raw history
to highly rated entries, derive the type preferences from the filtered
history, then score the venue against both. -/
def personalizedScore (venue : Venue) (user_rating_history : List (String × ℚ))
    (vbt : List (String × List Venue)) (venue_type : String)
    (user_preferences : Option UserPrefs) : ℚ :=
  let highly_rated := _filter_highly_rated_venues user_rating_history
  _calculate_venue_score venue highly_rated
    (_calculate_type_preferences highly_rated vbt) venue_type user_preferences


/-! ## Lemmas about the time grid and plan timing -/

lemma round15_le_add_seven (x : ℕ) : x ≤ round_time_to_15_minutes x + 7 := by
  unfold round_time_to_15_minutes
  omega

lemma onGrid_round15 (x : ℕ) : onGrid (round_time_to_15_minutes x) := by
  unfold onGrid round_time_to_15_minutes
  omega

/-- Abbreviation for the travel minutes `calculate_plan_timing` computes
between two consecutive venues (distance, mode choice at 2 km, travel time). -/
def travelMinutes (dist : Location → Location → ℚ) (p v : Venue) : ℕ :=
  calculate_travel_time (dist p.location v.location)
    (decide (dist p.location v.location ≤ 2))

/-- Abbreviation: the rounded start time of a non-first stop. -/
def stepStart (dist : Location → Location → ℚ) (p v : Venue) (ct : ℕ) : ℕ :=
  round_time_to_15_minutes (ct + travelMinutes dist p v + TRANSITION_BUFFER)

/-- Abbreviation: the rounded end time of a stop starting at `startT`. -/
def stepEnd (g : ℕ) (v : Venue) (startT : ℕ) : ℕ :=
  round_time_to_15_minutes (startT + get_venue_duration v.venue_type g)

lemma planTimingAux_nil (dist : Location → Location → ℚ) (g : ℕ)
    (prev : Option Venue) (ct : ℕ) : planTimingAux dist g prev ct [] = [] := rfl

lemma planTimingAux_cons_none (dist : Location → Location → ℚ) (g : ℕ)
    (ct : ℕ) (v : Venue) (rest : List Venue) :
    planTimingAux dist g none ct (v :: rest) =
      { venue := v, start_time := ct, end_time := stepEnd g v ct,
        duration_minutes := stepEnd g v ct - ct,
        travel_time_from_previous := 0, travel_distance_km := 0 } ::
      planTimingAux dist g (some v) (stepEnd g v ct) rest := rfl

lemma planTimingAux_cons_some (dist : Location → Location → ℚ) (g : ℕ)
    (p : Venue) (ct : ℕ) (v : Venue) (rest : List Venue) :
    planTimingAux dist g (some p) ct (v :: rest) =
      { venue := v, start_time := stepStart dist p v ct,
        end_time := stepEnd g v (stepStart dist p v ct),
        duration_minutes := stepEnd g v (stepStart dist p v ct) - stepStart dist p v ct,
        travel_time_from_previous := travelMinutes dist p v,
        travel_distance_km := dist p.location v.location } ::
      planTimingAux dist g (some v) (stepEnd g v (stepStart dist p v ct)) rest := rfl

/-- Any rounded start of a non-first stop is at or after the previous end:
the buffer adds 15 minutes and rounding moves a time down by at most 7. -/
lemma le_stepStart (dist : Location → Location → ℚ) (p v : Venue) (ct : ℕ) :
    ct ≤ stepStart dist p v ct := by
  have h7 := round15_le_add_seven (ct + travelMinutes dist p v + TRANSITION_BUFFER)
  unfold stepStart TRANSITION_BUFFER at *
  omega

lemma planTimingAux_venues (dist : Location → Location → ℚ) (g : ℕ) :
    ∀ (l : List Venue) (prev : Option Venue) (ct : ℕ),
      (planTimingAux dist g prev ct l).map (fun tv => tv.venue) = l := by
  intro l
  induction l with
  | nil => intro prev ct; rfl
  | cons v rest ih =>
    intro prev ct
    cases prev with
    | none => rw [planTimingAux_cons_none]; simp only [List.map_cons, ih]
    | some p => rw [planTimingAux_cons_some]; simp only [List.map_cons, ih]

lemma planTimingAux_chain (dist : Location → Location → ℚ) (g : ℕ) :
    ∀ (l : List Venue) (prev : Option Venue) (ct : ℕ),
      List.Chain' (fun a b => a.end_time ≤ b.start_time)
        (planTimingAux dist g prev ct l) := by
  intro l
  induction l with
  | nil => intro prev ct; exact List.chain'_nil
  | cons v rest ih =>
    intro prev ct
    have hhead : ∀ (endT : ℕ) (b : TimedVenue),
        b ∈ (planTimingAux dist g (some v) endT rest).head? → endT ≤ b.start_time := by
      intro endT b hb
      cases rest with
      | nil => exact absurd hb (Option.not_mem_none b)
      | cons w rest2 =>
        rw [planTimingAux_cons_some] at hb
        simp only [List.head?_cons, Option.mem_def, Option.some.injEq] at hb
        subst hb
        exact le_stepStart dist v w endT
    cases prev with
    | none =>
      rw [planTimingAux_cons_none]
      exact List.chain'_cons'.mpr ⟨hhead _, ih (some v) _⟩
    | some p =>
      rw [planTimingAux_cons_some]
      exact List.chain'_cons'.mpr ⟨hhead _, ih (some v) _⟩

lemma planTimingAux_grid (dist : Location → Location → ℚ) (g : ℕ) :
    ∀ (l : List Venue) (prev : Option Venue) (ct : ℕ), onGrid ct →
      ∀ tv ∈ planTimingAux dist g prev ct l,
        onGrid tv.start_time ∧ onGrid tv.end_time := by
  intro l
  induction l with
  | nil => intro prev ct _ tv htv; rw [planTimingAux_nil] at htv; cases htv
  | cons v rest ih =>
    intro prev ct hct tv htv
    cases prev with
    | none =>
      rw [planTimingAux_cons_none] at htv
      rcases List.mem_cons.mp htv with h | h
      · subst h
        exact ⟨hct, onGrid_round15 _⟩
      · exact ih (some v) _ (onGrid_round15 _) tv h
    | some p =>
      rw [planTimingAux_cons_some] at htv
      rcases List.mem_cons.mp htv with h | h
      · subst h
        exact ⟨onGrid_round15 _, onGrid_round15 _⟩
      · exact ih (some v) _ (onGrid_round15 _) tv h

/-! ## Sample data for concrete witnesses -/

/-- A concrete cafe venue used by the witness theorems. -/
def wCafe : Venue :=
  { id := "c1", name := "C", venue_type := "cafe", location := ⟨0, 0⟩, rating := some 4 }

/-- A concrete bar venue used by the witness theorems. -/
def wBar : Venue :=
  { id := "b1", name := "B", venue_type := "bar", location := ⟨1, 1⟩, rating := some 5 }

/-- A concrete restaurant venue used by the witness theorems. -/
def wRest : Venue :=
  { id := "r1", name := "R", venue_type := "restaurant", location := ⟨2, 2⟩ }

/-- A concrete park venue used by the witness theorems. -/
def wPark : Venue :=
  { id := "p1", name := "P", venue_type := "park", location := ⟨3, 3⟩ }

/-- The constant-zero distance function (trivially symmetric), used to
instantiate the abstract haversine parameter in witnesses. -/
def distZero : Location → Location → ℚ := fun _ _ => 0

/-- A concrete pick oracle (always the first candidate). -/
def picksZero : ℕ → ℕ := fun _ => 0

/-- A concrete shuffle oracle (identity reordering). -/
def shufflesId : ℕ → List String → List String := fun _ l => l

/-! ## C3 / C4: timetable monotonicity and grid alignment -/

/-- C3: for every non-empty ordered venue list, grid-aligned start instant and
group size, consecutive stops returned by `calculate_plan_timing` satisfy
`end_time(stop_rel_prev) ≤ start_time(stop_next)` — i.e.
`start_time(stop_i) ≥ end_time(stop_(i-1))` for every `i > 0`, stated as a
`Chain'` over the returned stop list.  Holds for every (even asymmetric,
even negative) distance function, since travel minutes are non-negative, the
15-minute transition buffer is always added, and grid rounding moves a time
down by at most 7 minutes. -/
theorem c3_monotonic_time (dist : Location → Location → ℚ) (venues : List Venue)
    (start_datetime group_size : ℕ) (hne : venues ≠ [])
    (hgrid : onGrid start_datetime) :
    List.Chain' (fun a b => a.end_time ≤ b.start_time)
      (calculate_plan_timing dist venues start_datetime group_size) :=
  planTimingAux_chain dist group_size venues none start_datetime

/-- C3 witness: the monotonicity theorem applied to a concrete two-stop plan
starting at 10:00 (absolute minute 600). -/
theorem c3_monotonic_time_witness :
    List.Chain' (fun a b => a.end_time ≤ b.start_time)
      (calculate_plan_timing distZero [wCafe, wBar] 600 2) :=
  c3_monotonic_time distZero [wCafe, wBar] 600 2 (by simp) (by decide)

/-- C4: for every start instant accepted by the request validator (minute
component in `{0, 15, 30, 45}`, seconds and microseconds zero — the latter
implicit in the minute-grained time model), every `start_time` and `end_time`
emitted by `calculate_plan_timing` falls on the 15-minute grid. -/
theorem c4_grid_alignment (dist : Location → Location → ℚ) (venues : List Venue)
    (start_datetime group_size : ℕ) (hgrid : onGrid start_datetime) :
    ∀ tv ∈ calculate_plan_timing dist venues start_datetime group_size,
      onGrid tv.start_time ∧ onGrid tv.end_time :=
  planTimingAux_grid dist group_size venues none start_datetime hgrid

/-- C4 witness: grid alignment applied to a concrete three-stop plan starting
at 10:15 (absolute minute 615). -/
theorem c4_grid_alignment_witness :
    (calculate_plan_timing distZero [wCafe, wRest, wBar] 615 3).Forall
      (fun tv => onGrid tv.start_time ∧ onGrid tv.end_time) :=
  List.forall_iff_forall_mem.mpr
    (c4_grid_alignment distZero [wCafe, wRest, wBar] 615 3 (by decide))

/-! ## Lemmas about the travel-optimization pass -/

lemma optLoop_zero (dist : Location → Location → ℚ) (l : List Venue) :
    optLoop dist 0 l = (l, false) := rfl

lemma optLoop_succ (dist : Location → Location → ℚ) (f : ℕ) (l : List Venue) :
    optLoop dist (f + 1) l =
      (let r := optPass dist l
       if r.2 then optLoop dist f r.1 else (r.1, true)) := rfl

/-- With a symmetric distance function every candidate swap compares the same
pair distance in both orders, so the savings are zero, never exceed the
0.5 km threshold, and a pass changes nothing and reports no improvement. -/
lemma optPass_eq_of_symm (dist : Location → Location → ℚ)
    (hsymm : ∀ x y, dist x y = dist y x) :
    ∀ l, optPass dist l = (l, false) := by
  intro l
  induction l with
  | nil => simp [optPass]
  | cons a tl ih =>
    cases tl with
    | nil => simp [optPass]
    | cons b rest =>
      rw [optPass]
      have h0 : calculate_total_travel_time dist [a, b] -
          calculate_total_travel_time dist [b, a] = 0 := by
        simp only [calculate_total_travel_time]
        rw [hsymm a.location b.location]
        ring
      rw [h0]
      have hc : ¬ ((0:ℚ) > 1/2 ∧ (0:ℚ) > calculate_type_conflict_penalty a b) := by
        rintro ⟨h1, _⟩
        norm_num at h1
      rw [if_neg hc]
      simp [ih]

lemma optLoop_eq_of_symm (dist : Location → Location → ℚ)
    (hsymm : ∀ x y, dist x y = dist y x) (l : List Venue) (fuel : ℕ)
    (hfuel : 1 ≤ fuel) : optLoop dist fuel l = (l, true) := by
  match fuel, hfuel with
  | f + 1, _ =>
    rw [optLoop_succ]
    simp [optPass_eq_of_symm dist hsymm l]

lemma optPass_perm_aux (dist : Location → Location → ℚ) :
    ∀ (n : ℕ) (l : List Venue), l.length ≤ n → ((optPass dist l).1).Perm l := by
  intro n
  induction n with
  | zero =>
    intro l hl
    match l with
    | [] => simp [optPass]
  | succ n ih =>
    intro l hl
    match l with
    | [] => simp [optPass]
    | [v] => simp [optPass]
    | a :: b :: rest =>
      rw [optPass]
      by_cases hc : calculate_total_travel_time dist [a, b] -
            calculate_total_travel_time dist [b, a] > 1/2 ∧
          calculate_total_travel_time dist [a, b] -
            calculate_total_travel_time dist [b, a] >
            calculate_type_conflict_penalty a b
      · rw [if_pos hc]
        have h1 := ih (a :: rest) (by simp at hl ⊢; omega)
        exact (h1.cons b).trans (List.Perm.swap a b rest)
      · rw [if_neg hc]
        have h1 := ih (b :: rest) (by simp at hl ⊢; omega)
        exact h1.cons a

lemma optPass_perm (dist : Location → Location → ℚ) (l : List Venue) :
    ((optPass dist l).1).Perm l :=
  optPass_perm_aux dist l.length l le_rfl

lemma optLoop_perm (dist : Location → Location → ℚ) :
    ∀ (fuel : ℕ) (l : List Venue), ((optLoop dist fuel l).1).Perm l := by
  intro fuel
  induction fuel with
  | zero => intro l; rw [optLoop_zero]
  | succ f ih =>
    intro l
    rw [optLoop_succ]
    by_cases h : (optPass dist l).2
    · simp only [h, if_true]
      exact (ih _).trans (optPass_perm dist l)
    · simp only [h, Bool.false_eq_true, if_false]
      exact optPass_perm dist l

lemma apply_travel_optimization_perm (dist : Location → Location → ℚ)
    (fuel : ℕ) (l : List Venue) :
    (apply_travel_optimization dist fuel l).Perm l := by
  unfold apply_travel_optimization
  by_cases h : l.length ≤ 2
  · rw [if_pos h]
  · rw [if_neg h]
    exact optLoop_perm dist fuel l

lemma optimize_venue_order_perm (dist : Location → Location → ℚ) (fuel : ℕ)
    (l : List Venue) (t : ℕ) : (optimize_venue_order dist fuel l t).Perm l := by
  unfold optimize_venue_order
  by_cases h : l.length ≤ 1
  · rw [if_pos h]
  · rw [if_neg h]
    exact (apply_travel_optimization_perm dist fuel _).trans
      (List.perm_insertionSort _ l)

/-- The stops of an assembled plan are, up to the sequencer's permutation,
exactly the selected venues; consequently any per-venue projection of the
stop list is a permutation of the same projection of the selection. -/
lemma create_single_plan_map {α : Type} (f : Venue → α)
    (dist : Location → Location → ℚ) (fuel : ℕ) (venues : List Venue)
    (types : List String) (pid : String) (req : PlanRequest) :
    ((_create_single_plan dist fuel venues types pid req).suggested_venues.map
      (fun tv => f tv.venue)).Perm (venues.map f) := by
  unfold _create_single_plan calculate_plan_timing
  have hv := planTimingAux_venues dist req.group_size
    (optimize_venue_order dist fuel venues req.date) none req.date
  have hmap : (planTimingAux dist req.group_size none req.date
      (optimize_venue_order dist fuel venues req.date)).map (fun tv => f tv.venue)
      = (optimize_venue_order dist fuel venues req.date).map f := by
    rw [show (fun (tv : TimedVenue) => f tv.venue) = f ∘ (fun tv => tv.venue) from rfl]
    rw [← List.map_map, hv]
  simp only [hmap]
  exact (optimize_venue_order_perm dist fuel venues req.date).map f

/-! ## C8 / C9: the adjacent-swap local search -/

/-- C8: the `while improved:` loop of `apply_travel_optimization` terminates.
With the (symmetric, as haversine is) distance function, the very first pass
accepts no swap — "each accepted swap strictly decreases total travel
distance" holds vacuously — so for any fuel bound ≥ 1 the loop exits through
its own condition (`true` flag = natural exit, never fuel exhaustion),
returning the list unchanged. -/
theorem c8_local_search_terminates (dist : Location → Location → ℚ)
    (hsymm : ∀ x y, dist x y = dist y x) (venues : List Venue) (fuel : ℕ)
    (hfuel : 1 ≤ fuel) :
    optPass dist venues = (venues, false) ∧
    optLoop dist fuel venues = (venues, true) :=
  ⟨optPass_eq_of_symm dist hsymm venues,
   optLoop_eq_of_symm dist hsymm venues fuel hfuel⟩

/-- C8 witness: the termination theorem applied to a concrete three-venue
list with the constant (symmetric) distance function and fuel 1. -/
theorem c8_local_search_terminates_witness :
    optPass distZero [wCafe, wRest, wBar] = ([wCafe, wRest, wBar], false) ∧
    optLoop distZero 1 [wCafe, wRest, wBar] = ([wCafe, wRest, wBar], true) :=
  c8_local_search_terminates distZero (fun _ _ => rfl) [wCafe, wRest, wBar] 1
    (by decide)

/-- C9: `apply_travel_optimization` is the identity on every venue list when
the distance function is symmetric (as the haversine `calculate_distance`
is): the candidate swap compares the same adjacent pair's distance in both
orders, so the computed savings are zero, never exceed the 0.5 km threshold,
and no swap is ever performed. -/
theorem c9_travel_optimization_identity (dist : Location → Location → ℚ)
    (hsymm : ∀ x y, dist x y = dist y x) (fuel : ℕ) (hfuel : 1 ≤ fuel)
    (venues : List Venue) :
    apply_travel_optimization dist fuel venues = venues := by
  unfold apply_travel_optimization
  by_cases h : venues.length ≤ 2
  · rw [if_pos h]
  · rw [if_neg h, optLoop_eq_of_symm dist hsymm venues fuel hfuel]

/-- C9 witness: the identity theorem applied to a concrete four-venue list
with the constant (symmetric) distance function. -/
theorem c9_travel_optimization_identity_witness :
    apply_travel_optimization distZero 4 [wBar, wCafe, wRest, wPark] =
      [wBar, wCafe, wRest, wPark] :=
  c9_travel_optimization_identity distZero (fun _ _ => rfl) 4 (by decide)
    [wBar, wCafe, wRest, wPark]

/-! ## Lemmas about the assembly selection loops -/

lemma getD_mem {α : Type} (l : List α) (n : ℕ) (d : α) (h : n < l.length) :
    l.getD n d ∈ l := by
  rw [List.getD_eq_getElem l d h]
  exact List.getElem_mem h

lemma selectLoop_nil (picks : ℕ → ℕ) (vbt : List (String × List Venue))
    (max_venues : ℕ) (cats : List String) (cnt : ℕ) (s : SelState) :
    selectLoop picks vbt max_venues [] cats cnt s = ([], [], s) := rfl

/-- Abbreviation for the `available_venues` filter inside the selection
loops: bucket venues whose id is not yet globally used. -/
def availableVenues (vbt : List (String × List Venue)) (t : String)
    (s : SelState) : List Venue :=
  (lookupBucket vbt t).filter (fun v => decide (v.id ∉ s.used_venues))

/-- Abbreviation for the `random.choice(top_available)` draw from the top
`min 3` available venues. -/
def chooseTop (picks : ℕ → ℕ) (s : SelState) (available : List Venue) : Venue :=
  (available.take (min 3 available.length)).getD
    (picks s.ctr % (available.take (min 3 available.length)).length) emptyVenue

lemma selectLoop_cons (picks : ℕ → ℕ) (vbt : List (String × List Venue))
    (max_venues : ℕ) (t : String) (ts cats : List String) (cnt : ℕ)
    (s : SelState) :
    selectLoop picks vbt max_venues (t :: ts) cats cnt s =
      (if t ∈ cats then selectLoop picks vbt max_venues ts cats cnt s
       else if (availableVenues vbt t s).isEmpty then
        selectLoop picks vbt max_venues ts cats cnt s
       else if max_venues ≤ cnt + 1 then
        ([chooseTop picks s (availableVenues vbt t s)], [t],
          ⟨(chooseTop picks s (availableVenues vbt t s)).id :: s.used_venues,
            s.ctr + 1⟩)
       else
        ((chooseTop picks s (availableVenues vbt t s)) ::
            (selectLoop picks vbt max_venues ts (t :: cats) (cnt + 1)
              ⟨(chooseTop picks s (availableVenues vbt t s)).id :: s.used_venues,
                s.ctr + 1⟩).1,
          t :: (selectLoop picks vbt max_venues ts (t :: cats) (cnt + 1)
              ⟨(chooseTop picks s (availableVenues vbt t s)).id :: s.used_venues,
                s.ctr + 1⟩).2.1,
          (selectLoop picks vbt max_venues ts (t :: cats) (cnt + 1)
              ⟨(chooseTop picks s (availableVenues vbt t s)).id :: s.used_venues,
                s.ctr + 1⟩).2.2)) := rfl

lemma chooseTop_mem (picks : ℕ → ℕ) (s : SelState) (available : List Venue)
    (h : available.isEmpty = false) :
    chooseTop picks s available ∈ available := by
  unfold chooseTop
  have hlen : 0 < available.length := by
    cases available with
    | nil => simp at h
    | cons a l => simp
  have htake : (available.take (min 3 available.length)).length =
      min 3 available.length := by
    rw [List.length_take]
    omega
  have htl : 0 < (available.take (min 3 available.length)).length := by omega
  have hmem := getD_mem _ (picks s.ctr % (available.take (min 3 available.length)).length)
    emptyVenue (Nat.mod_lt _ htl)
  exact List.take_subset _ _ hmem

lemma availableVenues_spec (vbt : List (String × List Venue)) (t : String)
    (s : SelState) (v : Venue) (hv : v ∈ availableVenues vbt t s) :
    v ∈ lookupBucket vbt t ∧ v.id ∉ s.used_venues := by
  unfold availableVenues at hv
  refine ⟨List.mem_of_mem_filter hv, ?_⟩
  have h := List.of_mem_filter hv
  simpa using h

lemma chooseTop_spec (picks : ℕ → ℕ) (vbt : List (String × List Venue))
    (t : String) (s : SelState)
    (h : (availableVenues vbt t s).isEmpty = false) :
    chooseTop picks s (availableVenues vbt t s) ∈ lookupBucket vbt t ∧
    (chooseTop picks s (availableVenues vbt t s)).id ∉ s.used_venues :=
  availableVenues_spec vbt t s _ (chooseTop_mem picks s _ h)

/-- The used-venue set after the selection loop is exactly the ids of the
selected venues (most recent first) on top of the incoming set. -/
lemma selectLoop_used (picks : ℕ → ℕ) (vbt : List (String × List Venue))
    (max_venues : ℕ) :
    ∀ (ts cats : List String) (cnt : ℕ) (s : SelState),
      (selectLoop picks vbt max_venues ts cats cnt s).2.2.used_venues =
        ((selectLoop picks vbt max_venues ts cats cnt s).1.map
          (fun v => v.id)).reverse ++ s.used_venues := by
  intro ts
  induction ts with
  | nil => intro cats cnt s; rw [selectLoop_nil]; simp
  | cons t ts ih =>
    intro cats cnt s
    rw [selectLoop_cons]
    by_cases h1 : t ∈ cats
    · rw [if_pos h1]; exact ih cats cnt s
    · rw [if_neg h1]
      by_cases h2 : (availableVenues vbt t s).isEmpty
      · rw [if_pos h2]; exact ih cats cnt s
      · rw [if_neg h2]
        by_cases h3 : max_venues ≤ cnt + 1
        · rw [if_pos h3]; simp
        · rw [if_neg h3]
          simp only [List.map_cons, List.reverse_cons, List.append_assoc,
            List.singleton_append]
          exact ih (t :: cats) (cnt + 1) _

/-- The selection loop preserves distinctness of the used-venue set: every
selected venue was checked against the set before its id was added. -/
lemma selectLoop_nodup (picks : ℕ → ℕ) (vbt : List (String × List Venue))
    (max_venues : ℕ) :
    ∀ (ts cats : List String) (cnt : ℕ) (s : SelState),
      s.used_venues.Nodup →
      (selectLoop picks vbt max_venues ts cats cnt s).2.2.used_venues.Nodup := by
  intro ts
  induction ts with
  | nil => intro cats cnt s hs; rw [selectLoop_nil]; exact hs
  | cons t ts ih =>
    intro cats cnt s hs
    rw [selectLoop_cons]
    by_cases h1 : t ∈ cats
    · rw [if_pos h1]; exact ih cats cnt s hs
    · rw [if_neg h1]
      by_cases h2 : (availableVenues vbt t s).isEmpty
      · rw [if_pos h2]; exact ih cats cnt s hs
      · rw [if_neg h2]
        have hnotin := (chooseTop_spec picks vbt t s (by simpa using h2)).2
        by_cases h3 : max_venues ≤ cnt + 1
        · rw [if_pos h3]
          exact List.Nodup.cons hnotin hs
        · rw [if_neg h3]
          exact ih (t :: cats) (cnt + 1) _ (List.Nodup.cons hnotin hs)

/-- The categories recorded by the selection loop avoid the incoming
per-plan category guard and are pairwise distinct. -/
lemma selectLoop_types (picks : ℕ → ℕ) (vbt : List (String × List Venue))
    (max_venues : ℕ) :
    ∀ (ts cats : List String) (cnt : ℕ) (s : SelState),
      (∀ x ∈ (selectLoop picks vbt max_venues ts cats cnt s).2.1, x ∉ cats) ∧
      (selectLoop picks vbt max_venues ts cats cnt s).2.1.Nodup := by
  intro ts
  induction ts with
  | nil => intro cats cnt s; rw [selectLoop_nil]; simp
  | cons t ts ih =>
    intro cats cnt s
    rw [selectLoop_cons]
    by_cases h1 : t ∈ cats
    · rw [if_pos h1]; exact ih cats cnt s
    · rw [if_neg h1]
      by_cases h2 : (availableVenues vbt t s).isEmpty
      · rw [if_pos h2]; exact ih cats cnt s
      · rw [if_neg h2]
        by_cases h3 : max_venues ≤ cnt + 1
        · rw [if_pos h3]
          exact ⟨by simpa using h1, List.nodup_singleton t⟩
        · rw [if_neg h3]
          obtain ⟨iha, ihb⟩ := ih (t :: cats) (cnt + 1)
            ⟨(chooseTop picks s (availableVenues vbt t s)).id :: s.used_venues,
              s.ctr + 1⟩
          constructor
          · intro x hx
            rcases List.mem_cons.mp hx with h | h
            · subst h; exact h1
            · intro hc; exact iha x h (List.mem_cons_of_mem t hc)
          · refine List.Nodup.cons ?_ ihb
            intro hc
            exact iha t hc (List.mem_cons_self t cats)

/-- Under a well-formed grouping (every bucket holds venues of its key), the
selection loop's venues project to exactly its recorded category list. -/
lemma selectLoop_types_eq (picks : ℕ → ℕ) (vbt : List (String × List Venue))
    (max_venues : ℕ)
    (hgroup : ∀ p ∈ vbt, ∀ v ∈ p.2, v.venue_type = p.1) :
    ∀ (ts cats : List String) (cnt : ℕ) (s : SelState),
      (selectLoop picks vbt max_venues ts cats cnt s).1.map
        (fun v => v.venue_type) =
      (selectLoop picks vbt max_venues ts cats cnt s).2.1 := by
  intro ts
  induction ts with
  | nil => intro cats cnt s; rw [selectLoop_nil]; rfl
  | cons t ts ih =>
    intro cats cnt s
    have htype : ∀ (s' : SelState), (availableVenues vbt t s').isEmpty = false →
        (chooseTop picks s' (availableVenues vbt t s')).venue_type = t := by
      intro s' hs'
      have hmem := (chooseTop_spec picks vbt t s' hs').1
      unfold lookupBucket at hmem
      cases hfind : vbt.find? (fun p => p.1 == t) with
      | none =>
        rw [hfind] at hmem
        exact absurd hmem (List.not_mem_nil _)
      | some pr =>
        rw [hfind] at hmem
        have h1 := List.mem_of_find?_eq_some hfind
        have h2 : pr.1 = t := by simpa using List.find?_some hfind
        have hmem' : chooseTop picks s' (availableVenues vbt t s') ∈ pr.2 := hmem
        exact (hgroup pr h1 _ hmem').trans h2
    rw [selectLoop_cons]
    by_cases h1 : t ∈ cats
    · rw [if_pos h1]; exact ih cats cnt s
    · rw [if_neg h1]
      by_cases h2 : (availableVenues vbt t s).isEmpty
      · rw [if_pos h2]; exact ih cats cnt s
      · rw [if_neg h2]
        by_cases h3 : max_venues ≤ cnt + 1
        · rw [if_pos h3]
          simp [htype s (by simpa using h2)]
        · rw [if_neg h3]
          simp only [List.map_cons, htype s (by simpa using h2)]
          rw [ih (t :: cats) (cnt + 1) _]

/-- The selection loop never returns more venues than `max_venues` allows
given the count already placed. -/
lemma selectLoop_len (picks : ℕ → ℕ) (vbt : List (String × List Venue))
    (max_venues : ℕ) :
    ∀ (ts cats : List String) (cnt : ℕ) (s : SelState), cnt < max_venues →
      (selectLoop picks vbt max_venues ts cats cnt s).1.length + cnt ≤
        max_venues := by
  intro ts
  induction ts with
  | nil => intro cats cnt s hcnt; rw [selectLoop_nil]; simpa using hcnt.le
  | cons t ts ih =>
    intro cats cnt s hcnt
    rw [selectLoop_cons]
    by_cases h1 : t ∈ cats
    · rw [if_pos h1]; exact ih cats cnt s hcnt
    · rw [if_neg h1]
      by_cases h2 : (availableVenues vbt t s).isEmpty
      · rw [if_pos h2]; exact ih cats cnt s hcnt
      · rw [if_neg h2]
        by_cases h3 : max_venues ≤ cnt + 1
        · rw [if_pos h3]
          simp only [List.length_singleton]
          omega
        · rw [if_neg h3]
          have := ih (t :: cats) (cnt + 1)
            ⟨(chooseTop picks s (availableVenues vbt t s)).id :: s.used_venues,
              s.ctr + 1⟩ (by omega)
          simp only [List.length_cons]
          omega

/-- Abbreviation for the `unused` filter in the fallback loop. -/
def unusedVenues (vs : List Venue) (s : SelState) : List Venue :=
  vs.filter (fun v => decide (v.id ∉ s.used_venues))

/-- Abbreviation for the fallback draw
`random.choice(unused) if len(unused) > 1 else unused[0]`, paired with the
updated position in the random stream (a single-element list consumes no
draw). -/
def chooseUnused (picks : ℕ → ℕ) (s : SelState) (unused : List Venue) :
    Venue × ℕ :=
  if 1 < unused.length
  then (unused.getD (picks s.ctr % unused.length) emptyVenue, s.ctr + 1)
  else (unused.getD 0 emptyVenue, s.ctr)

lemma fallbackLoop_nil (picks : ℕ → ℕ) (max_venues : ℕ) (cats : List String)
    (cnt : ℕ) (s : SelState) :
    fallbackLoop picks max_venues [] cats cnt s = ([], [], s) := rfl

lemma fallbackLoop_cons (picks : ℕ → ℕ) (max_venues : ℕ) (t : String)
    (vs : List Venue) (rest : List (String × List Venue)) (cats : List String)
    (cnt : ℕ) (s : SelState) :
    fallbackLoop picks max_venues ((t, vs) :: rest) cats cnt s =
      (if t ∈ cats then fallbackLoop picks max_venues rest cats cnt s
       else if !(unusedVenues vs s).isEmpty ∧ cnt < max_venues then
        ((chooseUnused picks s (unusedVenues vs s)).1 ::
            (fallbackLoop picks max_venues rest (t :: cats) (cnt + 1)
              ⟨(chooseUnused picks s (unusedVenues vs s)).1.id :: s.used_venues,
                (chooseUnused picks s (unusedVenues vs s)).2⟩).1,
          t :: (fallbackLoop picks max_venues rest (t :: cats) (cnt + 1)
              ⟨(chooseUnused picks s (unusedVenues vs s)).1.id :: s.used_venues,
                (chooseUnused picks s (unusedVenues vs s)).2⟩).2.1,
          (fallbackLoop picks max_venues rest (t :: cats) (cnt + 1)
              ⟨(chooseUnused picks s (unusedVenues vs s)).1.id :: s.used_venues,
                (chooseUnused picks s (unusedVenues vs s)).2⟩).2.2)
       else fallbackLoop picks max_venues rest cats cnt s) := rfl

lemma chooseUnused_mem (picks : ℕ → ℕ) (s : SelState) (unused : List Venue)
    (h : unused.isEmpty = false) : (chooseUnused picks s unused).1 ∈ unused := by
  have hlen : 0 < unused.length := by
    cases unused with
    | nil => simp at h
    | cons a l => simp
  unfold chooseUnused
  by_cases h1 : 1 < unused.length
  · rw [if_pos h1]; exact getD_mem _ _ _ (Nat.mod_lt _ hlen)
  · rw [if_neg h1]; exact getD_mem _ _ _ hlen

lemma unusedVenues_spec (vs : List Venue) (s : SelState) (v : Venue)
    (hv : v ∈ unusedVenues vs s) : v ∈ vs ∧ v.id ∉ s.used_venues := by
  unfold unusedVenues at hv
  refine ⟨List.mem_of_mem_filter hv, ?_⟩
  have h := List.of_mem_filter hv
  simpa using h

lemma chooseUnused_spec (picks : ℕ → ℕ) (s : SelState) (vs : List Venue)
    (h : (unusedVenues vs s).isEmpty = false) :
    (chooseUnused picks s (unusedVenues vs s)).1 ∈ vs ∧
    (chooseUnused picks s (unusedVenues vs s)).1.id ∉ s.used_venues :=
  unusedVenues_spec vs s _ (chooseUnused_mem picks s _ h)

lemma fallbackLoop_used (picks : ℕ → ℕ) (max_venues : ℕ) :
    ∀ (items : List (String × List Venue)) (cats : List String) (cnt : ℕ)
      (s : SelState),
      (fallbackLoop picks max_venues items cats cnt s).2.2.used_venues =
        ((fallbackLoop picks max_venues items cats cnt s).1.map
          (fun v => v.id)).reverse ++ s.used_venues := by
  intro items
  induction items with
  | nil => intro cats cnt s; rw [fallbackLoop_nil]; simp
  | cons p rest ih =>
    intro cats cnt s
    obtain ⟨t, vs⟩ := p
    rw [fallbackLoop_cons]
    by_cases h1 : t ∈ cats
    · rw [if_pos h1]; exact ih cats cnt s
    · rw [if_neg h1]
      by_cases h2 : !(unusedVenues vs s).isEmpty ∧ cnt < max_venues
      · rw [if_pos h2]
        simp only [List.map_cons, List.reverse_cons, List.append_assoc,
          List.singleton_append]
        exact ih (t :: cats) (cnt + 1) _
      · rw [if_neg h2]; exact ih cats cnt s

lemma fallbackLoop_nodup (picks : ℕ → ℕ) (max_venues : ℕ) :
    ∀ (items : List (String × List Venue)) (cats : List String) (cnt : ℕ)
      (s : SelState), s.used_venues.Nodup →
      (fallbackLoop picks max_venues items cats cnt s).2.2.used_venues.Nodup := by
  intro items
  induction items with
  | nil => intro cats cnt s hs; rw [fallbackLoop_nil]; exact hs
  | cons p rest ih =>
    intro cats cnt s hs
    obtain ⟨t, vs⟩ := p
    rw [fallbackLoop_cons]
    by_cases h1 : t ∈ cats
    · rw [if_pos h1]; exact ih cats cnt s hs
    · rw [if_neg h1]
      by_cases h2 : !(unusedVenues vs s).isEmpty ∧ cnt < max_venues
      · rw [if_pos h2]
        have hne : (unusedVenues vs s).isEmpty = false := by
          have := h2.1
          simpa using this
        exact ih (t :: cats) (cnt + 1) _
          (List.Nodup.cons (chooseUnused_spec picks s vs hne).2 hs)
      · rw [if_neg h2]; exact ih cats cnt s hs

lemma fallbackLoop_types (picks : ℕ → ℕ) (max_venues : ℕ) :
    ∀ (items : List (String × List Venue)) (cats : List String) (cnt : ℕ)
      (s : SelState),
      (∀ x ∈ (fallbackLoop picks max_venues items cats cnt s).2.1, x ∉ cats) ∧
      (fallbackLoop picks max_venues items cats cnt s).2.1.Nodup := by
  intro items
  induction items with
  | nil => intro cats cnt s; rw [fallbackLoop_nil]; simp
  | cons p rest ih =>
    intro cats cnt s
    obtain ⟨t, vs⟩ := p
    rw [fallbackLoop_cons]
    by_cases h1 : t ∈ cats
    · rw [if_pos h1]; exact ih cats cnt s
    · rw [if_neg h1]
      by_cases h2 : !(unusedVenues vs s).isEmpty ∧ cnt < max_venues
      · rw [if_pos h2]
        obtain ⟨iha, ihb⟩ := ih (t :: cats) (cnt + 1)
          ⟨(chooseUnused picks s (unusedVenues vs s)).1.id :: s.used_venues,
            (chooseUnused picks s (unusedVenues vs s)).2⟩
        constructor
        · intro x hx
          rcases List.mem_cons.mp hx with h | h
          · subst h; exact h1
          · intro hc; exact iha x h (List.mem_cons_of_mem t hc)
        · refine List.Nodup.cons ?_ ihb
          intro hc
          exact iha t hc (List.mem_cons_self t cats)
      · rw [if_neg h2]; exact ih cats cnt s

lemma fallbackLoop_types_eq (picks : ℕ → ℕ) (max_venues : ℕ) :
    ∀ (items : List (String × List Venue)) (cats : List String) (cnt : ℕ)
      (s : SelState),
      (∀ p ∈ items, ∀ v ∈ p.2, v.venue_type = p.1) →
      (fallbackLoop picks max_venues items cats cnt s).1.map
        (fun v => v.venue_type) =
      (fallbackLoop picks max_venues items cats cnt s).2.1 := by
  intro items
  induction items with
  | nil => intro cats cnt s _; rw [fallbackLoop_nil]; rfl
  | cons p rest ih =>
    intro cats cnt s hgroup
    obtain ⟨t, vs⟩ := p
    have hgrest : ∀ p ∈ rest, ∀ v ∈ p.2, v.venue_type = p.1 := by
      intro p hp
      exact hgroup p (List.mem_cons_of_mem _ hp)
    rw [fallbackLoop_cons]
    by_cases h1 : t ∈ cats
    · rw [if_pos h1]; exact ih cats cnt s hgrest
    · rw [if_neg h1]
      by_cases h2 : !(unusedVenues vs s).isEmpty ∧ cnt < max_venues
      · rw [if_pos h2]
        have hne : (unusedVenues vs s).isEmpty = false := by
          have := h2.1
          simpa using this
        have htype : (chooseUnused picks s (unusedVenues vs s)).1.venue_type = t :=
          hgroup (t, vs) (List.mem_cons_self _ _) _
            (chooseUnused_spec picks s vs hne).1
        simp only [List.map_cons, htype]
        rw [ih (t :: cats) (cnt + 1) _ hgrest]
      · rw [if_neg h2]; exact ih cats cnt s hgrest

lemma fallbackLoop_len (picks : ℕ → ℕ) (max_venues : ℕ) :
    ∀ (items : List (String × List Venue)) (cats : List String) (cnt : ℕ)
      (s : SelState),
      (fallbackLoop picks max_venues items cats cnt s).1.length ≤
        max_venues - cnt := by
  intro items
  induction items with
  | nil => intro cats cnt s; rw [fallbackLoop_nil]; simp
  | cons p rest ih =>
    intro cats cnt s
    obtain ⟨t, vs⟩ := p
    rw [fallbackLoop_cons]
    by_cases h1 : t ∈ cats
    · rw [if_pos h1]; exact ih cats cnt s
    · rw [if_neg h1]
      by_cases h2 : !(unusedVenues vs s).isEmpty ∧ cnt < max_venues
      · rw [if_pos h2]
        have := ih (t :: cats) (cnt + 1)
          ⟨(chooseUnused picks s (unusedVenues vs s)).1.id :: s.used_venues,
            (chooseUnused picks s (unusedVenues vs s)).2⟩
        simp only [List.length_cons]
        omega
      · rw [if_neg h2]; exact ih cats cnt s

/-- Abbreviation: the selection-loop call made for main plan index `p`. -/
def mainSelect (picks : ℕ → ℕ) (shuffles : ℕ → List String → List String)
    (vbt : List (String × List Venue)) (req : PlanRequest) (p : ℕ)
    (s : SelState) : List Venue × List String × SelState :=
  selectLoop picks vbt req.max_venues
    (shuffles p (windowTypes (vbt.map Prod.fst) req.max_venues p)) [] 0 s

/-- Abbreviation: the fallback-loop call made for one fallback plan. -/
def fbSelect (picks : ℕ → ℕ) (vbt : List (String × List Venue))
    (req : PlanRequest) (s : SelState) : List Venue × List String × SelState :=
  fallbackLoop picks req.max_venues vbt [] 0 s

lemma mainPlans_nil (dist : Location → Location → ℚ) (fuel : ℕ)
    (picks : ℕ → ℕ) (shuffles : ℕ → List String → List String)
    (vbt : List (String × List Venue)) (req : PlanRequest) (s : SelState) :
    mainPlans dist fuel picks shuffles vbt req [] s = ([], s) := rfl

lemma mainPlans_cons (dist : Location → Location → ℚ) (fuel : ℕ)
    (picks : ℕ → ℕ) (shuffles : ℕ → List String → List String)
    (vbt : List (String × List Venue)) (req : PlanRequest) (p : ℕ)
    (ps : List ℕ) (s : SelState) :
    mainPlans dist fuel picks shuffles vbt req (p :: ps) s =
      (if (mainSelect picks shuffles vbt req p s).1.isEmpty then
        mainPlans dist fuel picks shuffles vbt req ps
          (mainSelect picks shuffles vbt req p s).2.2
       else
        (_create_single_plan dist fuel (mainSelect picks shuffles vbt req p s).1
            (mainSelect picks shuffles vbt req p s).2.1
            (req.plan_id ++ "-plan" ++ toString (p + 1)) req ::
          (mainPlans dist fuel picks shuffles vbt req ps
            (mainSelect picks shuffles vbt req p s).2.2).1,
         (mainPlans dist fuel picks shuffles vbt req ps
            (mainSelect picks shuffles vbt req p s).2.2).2)) := rfl

lemma fallbackWhile_zero (dist : Location → Location → ℚ) (fuel : ℕ)
    (picks : ℕ → ℕ) (vbt : List (String × List Venue)) (req : PlanRequest)
    (nplans : ℕ) (s : SelState) :
    fallbackWhile dist fuel picks vbt req 0 nplans s = ([], s) := rfl

lemma fallbackWhile_succ (dist : Location → Location → ℚ) (fuel : ℕ)
    (picks : ℕ → ℕ) (vbt : List (String × List Venue)) (req : PlanRequest)
    (f nplans : ℕ) (s : SelState) :
    fallbackWhile dist fuel picks vbt req (f + 1) nplans s =
      (if (fbSelect picks vbt req s).1.isEmpty then
        ([], (fbSelect picks vbt req s).2.2)
       else
        (_create_single_plan dist fuel (fbSelect picks vbt req s).1
            (fbSelect picks vbt req s).2.1
            (req.plan_id ++ "-plan" ++ toString (nplans + 1)) req ::
          (fallbackWhile dist fuel picks vbt req f (nplans + 1)
            (fbSelect picks vbt req s).2.2).1,
         (fallbackWhile dist fuel picks vbt req f (nplans + 1)
            (fbSelect picks vbt req s).2.2).2)) := rfl

lemma generate_unfold (dist : Location → Location → ℚ) (fuel : ℕ)
    (picks : ℕ → ℕ) (shuffles : ℕ → List String → List String)
    (vbt : List (String × List Venue)) (req : PlanRequest) :
    _generate_multiple_plans dist fuel picks shuffles vbt req =
      ((mainPlans dist fuel picks shuffles vbt req [0, 1, 2] ⟨[], 0⟩).1 ++
        (fallbackWhile dist fuel picks vbt req
          (3 - (mainPlans dist fuel picks shuffles vbt req [0, 1, 2] ⟨[], 0⟩).1.length)
          (mainPlans dist fuel picks shuffles vbt req [0, 1, 2] ⟨[], 0⟩).1.length
          (mainPlans dist fuel picks shuffles vbt req [0, 1, 2] ⟨[], 0⟩).2).1).take 3
    := rfl

lemma create_single_plan_ids (dist : Location → Location → ℚ) (fuel : ℕ)
    (venues : List Venue) (types : List String) (pid : String)
    (req : PlanRequest) :
    (idsOfPlan (_create_single_plan dist fuel venues types pid req)).Perm
      (venues.map (fun v => v.id)) :=
  create_single_plan_map (fun v => v.id) dist fuel venues types pid req

/-- Each step of the three-plan loop extends the used set by exactly the ids
it places; the flattened stop ids of the produced plans are a permutation of
the newly used ids, and distinctness of the used set is preserved. -/
lemma mainPlans_spec (dist : Location → Location → ℚ) (fuel : ℕ)
    (picks : ℕ → ℕ) (shuffles : ℕ → List String → List String)
    (vbt : List (String × List Venue)) (req : PlanRequest) :
    ∀ (ps : List ℕ) (s : SelState),
      ∃ u : List String,
        (mainPlans dist fuel picks shuffles vbt req ps s).2.used_venues =
          u ++ s.used_venues ∧
        ((mainPlans dist fuel picks shuffles vbt req ps s).1.flatMap
          idsOfPlan).Perm u ∧
        (s.used_venues.Nodup →
          (mainPlans dist fuel picks shuffles vbt req ps s).2.used_venues.Nodup) := by
  intro ps
  induction ps with
  | nil =>
    intro s
    refine ⟨[], ?_, ?_, ?_⟩
    · rw [mainPlans_nil]; simp
    · rw [mainPlans_nil]; simp
    · intro hs; rw [mainPlans_nil]; exact hs
  | cons p ps ih =>
    intro s
    have hused := selectLoop_used picks vbt req.max_venues
      (shuffles p (windowTypes (vbt.map Prod.fst) req.max_venues p)) [] 0 s
    have hnodup := selectLoop_nodup picks vbt req.max_venues
      (shuffles p (windowTypes (vbt.map Prod.fst) req.max_venues p)) [] 0 s
    obtain ⟨u', hu1, hu2, hu3⟩ := ih (mainSelect picks shuffles vbt req p s).2.2
    rw [mainPlans_cons]
    by_cases hemp : (mainSelect picks shuffles vbt req p s).1.isEmpty
    · rw [if_pos hemp]
      have hr1 : (mainSelect picks shuffles vbt req p s).1 = [] :=
        List.isEmpty_iff.mp hemp
      refine ⟨u', ?_, hu2, ?_⟩
      · rw [hu1]
        have : (mainSelect picks shuffles vbt req p s).2.2.used_venues =
            s.used_venues := by
          unfold mainSelect
          rw [hused]
          unfold mainSelect at hr1
          rw [hr1]
          simp
        rw [this]
      · intro hs
        exact hu3 (by unfold mainSelect; exact hnodup hs)
    · rw [if_neg hemp]
      refine ⟨u' ++ ((mainSelect picks shuffles vbt req p s).1.map
        (fun v => v.id)).reverse, ?_, ?_, ?_⟩
      · simp only []
        rw [hu1]
        unfold mainSelect
        rw [hused]
        simp [List.append_assoc]
      · simp only [List.flatMap_cons]
        have hplan := create_single_plan_ids dist fuel
          (mainSelect picks shuffles vbt req p s).1
          (mainSelect picks shuffles vbt req p s).2.1
          (req.plan_id ++ "-plan" ++ toString (p + 1)) req
        have h1 : (idsOfPlan (_create_single_plan dist fuel
            (mainSelect picks shuffles vbt req p s).1
            (mainSelect picks shuffles vbt req p s).2.1
            (req.plan_id ++ "-plan" ++ toString (p + 1)) req)).Perm
            ((mainSelect picks shuffles vbt req p s).1.map (fun v => v.id)).reverse :=
          hplan.trans (List.reverse_perm _).symm
        exact (h1.append hu2).trans List.perm_append_comm
      · intro hs
        exact hu3 (by unfold mainSelect; exact hnodup hs)

/-- The fallback loop's analogue of `mainPlans_spec`. -/
lemma fallbackWhile_spec (dist : Location → Location → ℚ) (fuel : ℕ)
    (picks : ℕ → ℕ) (vbt : List (String × List Venue)) (req : PlanRequest) :
    ∀ (f nplans : ℕ) (s : SelState),
      ∃ u : List String,
        (fallbackWhile dist fuel picks vbt req f nplans s).2.used_venues =
          u ++ s.used_venues ∧
        ((fallbackWhile dist fuel picks vbt req f nplans s).1.flatMap
          idsOfPlan).Perm u ∧
        (s.used_venues.Nodup →
          (fallbackWhile dist fuel picks vbt req f nplans s).2.used_venues.Nodup) := by
  intro f
  induction f with
  | zero =>
    intro nplans s
    refine ⟨[], ?_, ?_, ?_⟩
    · rw [fallbackWhile_zero]; simp
    · rw [fallbackWhile_zero]; simp
    · intro hs; rw [fallbackWhile_zero]; exact hs
  | succ f ih =>
    intro nplans s
    have hused := fallbackLoop_used picks req.max_venues vbt [] 0 s
    have hnodup := fallbackLoop_nodup picks req.max_venues vbt [] 0 s
    rw [fallbackWhile_succ]
    by_cases hemp : (fbSelect picks vbt req s).1.isEmpty
    · rw [if_pos hemp]
      have hr1 : (fbSelect picks vbt req s).1 = [] := List.isEmpty_iff.mp hemp
      refine ⟨[], ?_, by simp, ?_⟩
      · unfold fbSelect
        rw [hused]
        unfold fbSelect at hr1
        rw [hr1]
        simp
      · intro hs
        unfold fbSelect
        exact hnodup hs
    · rw [if_neg hemp]
      obtain ⟨u', hu1, hu2, hu3⟩ := ih (nplans + 1) (fbSelect picks vbt req s).2.2
      refine ⟨u' ++ ((fbSelect picks vbt req s).1.map (fun v => v.id)).reverse,
        ?_, ?_, ?_⟩
      · simp only []
        rw [hu1]
        unfold fbSelect
        rw [hused]
        simp [List.append_assoc]
      · simp only [List.flatMap_cons]
        have hplan := create_single_plan_ids dist fuel (fbSelect picks vbt req s).1
          (fbSelect picks vbt req s).2.1
          (req.plan_id ++ "-plan" ++ toString (nplans + 1)) req
        have h1 : (idsOfPlan (_create_single_plan dist fuel
            (fbSelect picks vbt req s).1 (fbSelect picks vbt req s).2.1
            (req.plan_id ++ "-plan" ++ toString (nplans + 1)) req)).Perm
            ((fbSelect picks vbt req s).1.map (fun v => v.id)).reverse :=
          hplan.trans (List.reverse_perm _).symm
        exact (h1.append hu2).trans List.perm_append_comm
      · intro hs
        exact hu3 (by unfold fbSelect; exact hnodup hs)

lemma flatMap_sublist {α β : Type} (f : α → List β) {l1 l2 : List α}
    (h : List.Sublist l1 l2) :
    List.Sublist (l1.flatMap f) (l2.flatMap f) := by
  induction h with
  | slnil => simp
  | cons a h ihs =>
    simp only [List.flatMap_cons]
    exact ihs.trans (List.sublist_append_right (f a) _)
  | cons₂ a h ihs =>
    simp only [List.flatMap_cons]
    exact ihs.append_left (f a)

lemma pairwise_disjoint_of_flatMap_nodup {α β : Type} (f : α → List β) :
    ∀ (l : List α), (l.flatMap f).Nodup →
      l.Pairwise (fun a b => ∀ x ∈ f a, x ∉ f b) := by
  intro l
  induction l with
  | nil => intro _; exact List.Pairwise.nil
  | cons a tl ih =>
    intro h
    rw [List.flatMap_cons, List.nodup_append] at h
    refine List.Pairwise.cons ?_ (ih h.2.1)
    intro b hb x hx hxb
    exact h.2.2 hx (List.mem_flatMap.mpr ⟨b, hb, hxb⟩)

/-! ## C1: global venue disjointness -/

/-- C1: for every request, every pool of venues grouped by category, any
distance function and any stream of random draws, the itineraries returned by
`_generate_multiple_plans` place every venue id at most once across (and
within) all returned plans — the flattened id list is duplicate-free, so in
particular no venue id appears in more than one itinerary (pairwise
disjointness).  This is enforced by the `used_venues` set threaded through
assembly. -/
theorem c1_global_venue_disjointness (dist : Location → Location → ℚ)
    (fuel : ℕ) (picks : ℕ → ℕ) (shuffles : ℕ → List String → List String)
    (vbt : List (String × List Venue)) (req : PlanRequest) :
    ((_generate_multiple_plans dist fuel picks shuffles vbt req).flatMap
      idsOfPlan).Nodup ∧
    (_generate_multiple_plans dist fuel picks shuffles vbt req).Pairwise
      (fun p q => ∀ x ∈ idsOfPlan p, x ∉ idsOfPlan q) := by
  obtain ⟨u1, hm1, hm2, hm3⟩ := mainPlans_spec dist fuel picks shuffles vbt req
    [0, 1, 2] ⟨[], 0⟩
  obtain ⟨u2, hf1, hf2, hf3⟩ := fallbackWhile_spec dist fuel picks vbt req
    (3 - (mainPlans dist fuel picks shuffles vbt req [0, 1, 2] ⟨[], 0⟩).1.length)
    (mainPlans dist fuel picks shuffles vbt req [0, 1, 2] ⟨[], 0⟩).1.length
    (mainPlans dist fuel picks shuffles vbt req [0, 1, 2] ⟨[], 0⟩).2
  have hfinal := hf3 (hm3 (by simp))
  rw [hf1, hm1] at hfinal
  have hfinal2 : (u2 ++ u1).Nodup := by simpa using hfinal
  have hperm := (hm2.append hf2).trans (List.perm_append_comm)
  have hApp : (((mainPlans dist fuel picks shuffles vbt req [0, 1, 2] ⟨[], 0⟩).1 ++
      (fallbackWhile dist fuel picks vbt req
        (3 - (mainPlans dist fuel picks shuffles vbt req [0, 1, 2] ⟨[], 0⟩).1.length)
        (mainPlans dist fuel picks shuffles vbt req [0, 1, 2] ⟨[], 0⟩).1.length
        (mainPlans dist fuel picks shuffles vbt req [0, 1, 2] ⟨[], 0⟩).2).1).flatMap
      idsOfPlan).Nodup := by
    rw [List.flatMap_append]
    exact hperm.nodup_iff.mpr hfinal2
  have hN : ((_generate_multiple_plans dist fuel picks shuffles vbt req).flatMap
      idsOfPlan).Nodup := by
    rw [generate_unfold]
    exact hApp.sublist (flatMap_sublist idsOfPlan (List.take_sublist 3 _))
  exact ⟨hN, pairwise_disjoint_of_flatMap_nodup idsOfPlan _ hN⟩

lemma create_single_plan_len (dist : Location → Location → ℚ) (fuel : ℕ)
    (venues : List Venue) (types : List String) (pid : String)
    (req : PlanRequest) :
    (_create_single_plan dist fuel venues types pid req).suggested_venues.length
      = venues.length := by
  have h := (create_single_plan_map (fun v => v) dist fuel venues types pid req).length_eq
  simpa using h

lemma create_single_plan_types (dist : Location → Location → ℚ) (fuel : ℕ)
    (venues : List Venue) (types : List String) (pid : String)
    (req : PlanRequest) :
    ((_create_single_plan dist fuel venues types pid req).suggested_venues.map
      (fun tv => tv.venue.venue_type)).Perm (venues.map (fun v => v.venue_type)) :=
  create_single_plan_map (fun v => v.venue_type) dist fuel venues types pid req

/-- Every itinerary produced by the three-plan loop respects the stop cap and
has pairwise-distinct stop categories. -/
lemma mainPlans_plans_spec (dist : Location → Location → ℚ) (fuel : ℕ)
    (picks : ℕ → ℕ) (shuffles : ℕ → List String → List String)
    (vbt : List (String × List Venue)) (req : PlanRequest)
    (h1 : 1 ≤ req.max_venues)
    (hgroup : ∀ p ∈ vbt, ∀ v ∈ p.2, v.venue_type = p.1) :
    ∀ (ps : List ℕ) (s : SelState),
      ∀ plan ∈ (mainPlans dist fuel picks shuffles vbt req ps s).1,
        plan.suggested_venues.length ≤ req.max_venues ∧
        (plan.suggested_venues.map (fun tv => tv.venue.venue_type)).Nodup := by
  intro ps
  induction ps with
  | nil => intro s plan hplan; rw [mainPlans_nil] at hplan; cases hplan
  | cons p ps ih =>
    intro s plan hplan
    rw [mainPlans_cons] at hplan
    by_cases hemp : (mainSelect picks shuffles vbt req p s).1.isEmpty
    · rw [if_pos hemp] at hplan
      exact ih _ plan hplan
    · rw [if_neg hemp] at hplan
      rcases List.mem_cons.mp hplan with heq | h
    
      · subst heq
        constructor
        · rw [create_single_plan_len]
          have hlen := selectLoop_len picks vbt req.max_venues
            (shuffles p (windowTypes (vbt.map Prod.fst) req.max_venues p)) [] 0 s
            (by omega)
          unfold mainSelect
          omega
        · have hperm := create_single_plan_types dist fuel
            (mainSelect picks shuffles vbt req p s).1
            (mainSelect picks shuffles vbt req p s).2.1
            (req.plan_id ++ "-plan" ++ toString (p + 1)) req
          have heq2 := selectLoop_types_eq picks vbt req.max_venues hgroup
            (shuffles p (windowTypes (vbt.map Prod.fst) req.max_venues p)) [] 0 s
          have hnd := (selectLoop_types picks vbt req.max_venues
            (shuffles p (windowTypes (vbt.map Prod.fst) req.max_venues p)) [] 0 s).2
          refine hperm.nodup_iff.mpr ?_
          unfold mainSelect
          rw [heq2]
          exact hnd
      · exact ih _ plan h

/-- Every itinerary produced by the fallback loop respects the stop cap and
has pairwise-distinct stop categories. -/
lemma fallbackWhile_plans_spec (dist : Location → Location → ℚ) (fuel : ℕ)
    (picks : ℕ → ℕ) (vbt : List (String × List Venue)) (req : PlanRequest)
    (hgroup : ∀ p ∈ vbt, ∀ v ∈ p.2, v.venue_type = p.1) :
    ∀ (f nplans : ℕ) (s : SelState),
      ∀ plan ∈ (fallbackWhile dist fuel picks vbt req f nplans s).1,
        plan.suggested_venues.length ≤ req.max_venues ∧
        (plan.suggested_venues.map (fun tv => tv.venue.venue_type)).Nodup := by
  intro f
  induction f with
  | zero => intro nplans s plan hplan; rw [fallbackWhile_zero] at hplan; cases hplan
  | succ f ih =>
    intro nplans s plan hplan
    rw [fallbackWhile_succ] at hplan
    by_cases hemp : (fbSelect picks vbt req s).1.isEmpty
    · rw [if_pos hemp] at hplan; cases hplan
    · rw [if_neg hemp] at hplan
      rcases List.mem_cons.mp hplan with heq | h
      · subst heq
        constructor
        · rw [create_single_plan_len]
          have hlen := fallbackLoop_len picks req.max_venues vbt [] 0 s
          unfold fbSelect
          omega
        · have hperm := create_single_plan_types dist fuel
            (fbSelect picks vbt req s).1 (fbSelect picks vbt req s).2.1
            (req.plan_id ++ "-plan" ++ toString (nplans + 1)) req
          have heq2 := fallbackLoop_types_eq picks req.max_venues vbt [] 0 s hgroup
          have hnd := (fallbackLoop_types picks req.max_venues vbt [] 0 s).2
          refine hperm.nodup_iff.mpr ?_
          unfold fbSelect
          rw [heq2]
          exact hnd
      · exact ih _ _ plan h

/-! ## C5: category cap and per-itinerary category distinctness -/

/-- C5: for every request whose stop count is at most the number of offered
categories (and at least 1, as the request model's `max_venues ≥ 1` bound
guarantees), with the pool well-grouped (each bucket holds venues of its key
category), every itinerary the assembler returns has at most `max_venues`
stops and no two stops of one itinerary share a category. -/
theorem c5_category_cap (dist : Location → Location → ℚ) (fuel : ℕ)
    (picks : ℕ → ℕ) (shuffles : ℕ → List String → List String)
    (vbt : List (String × List Venue)) (req : PlanRequest)
    (hmax : req.max_venues ≤ vbt.length) (h1 : 1 ≤ req.max_venues)
    (hgroup : ∀ p ∈ vbt, ∀ v ∈ p.2, v.venue_type = p.1) :
    ∀ plan ∈ _generate_multiple_plans dist fuel picks shuffles vbt req,
      plan.suggested_venues.length ≤ req.max_venues ∧
      (plan.suggested_venues.map (fun tv => tv.venue.venue_type)).Nodup := by
  intro plan hplan
  rw [generate_unfold] at hplan
  have hplan2 := (List.take_sublist 3 _).subset hplan
  rcases List.mem_append.mp hplan2 with h | h
  · exact mainPlans_plans_spec dist fuel picks shuffles vbt req h1 hgroup
      [0, 1, 2] ⟨[], 0⟩ plan h
  · exact fallbackWhile_plans_spec dist fuel picks vbt req hgroup _ _ _ plan h

/-- C5 witness: the cap theorem applied to a concrete two-category pool with
`max_venues = 2`. -/
theorem c5_category_cap_witness :
    (_generate_multiple_plans distZero 3 picksZero shufflesId
      [("cafe", [wCafe]), ("bar", [wBar])]
      { plan_id := "pl", user_id := "u", date := 600, group_size := 2,
        max_venues := 2 }).Forall
      (fun plan => plan.suggested_venues.length ≤ 2 ∧
        (plan.suggested_venues.map (fun tv => tv.venue.venue_type)).Nodup) :=
  List.forall_iff_forall_mem.mpr
    (c5_category_cap distZero 3 picksZero shufflesId
      [("cafe", [wCafe]), ("bar", [wBar])]
      { plan_id := "pl", user_id := "u", date := 600, group_size := 2,
        max_venues := 2 }
      (by decide) (by decide) (by decide))

/-! ## C2: stop-count validation -/

/-- C2: `generate_multiple_plans` raises the `ValueError` exactly when the
requested stop count exceeds the number of offered categories, and the check
runs before any itinerary is assembled (the `Except.error` is produced by the
guard that precedes all assembly in the embedding, mirroring the source
order); when the stop count is within bounds no such error is raised and the
assembled plans are returned. -/
theorem c2_validation_rejection (dist : Location → Location → ℚ) (fuel : ℕ)
    (picks : ℕ → ℕ) (shuffles : ℕ → List String → List String)
    (bucketShuffles : String → (List Venue → List Venue) × (List Venue → List Venue))
    (vbt : List (String × List Venue)) (req : PlanRequest) :
    ((∃ e, generate_multiple_plans dist fuel picks shuffles bucketShuffles vbt req
        = Except.error e) ↔ vbt.length < req.max_venues) ∧
    (req.max_venues ≤ vbt.length →
      ∃ plans, generate_multiple_plans dist fuel picks shuffles bucketShuffles vbt req
        = Except.ok plans) := by
  unfold generate_multiple_plans
  by_cases h : vbt.length < req.max_venues
  · rw [if_pos h]
    exact ⟨⟨fun _ => h, fun _ => ⟨_, rfl⟩⟩, fun hle => absurd h (by omega)⟩
  · rw [if_neg h]
    refine ⟨⟨?_, fun hlt => absurd hlt h⟩, fun _ => ⟨_, rfl⟩⟩
    rintro ⟨e, he⟩
    cases he

/-- C2 witness: the validation theorem applied to a concrete pool of two
categories with requested stop counts 3 (rejected) — instantiating the iff —
and the in-bounds direction at stop count 2. -/
theorem c2_validation_rejection_witness :
    ((∃ e, generate_multiple_plans distZero 3 picksZero shufflesId
        (fun _ => (fun l => l, fun l => l))
        [("cafe", [wCafe]), ("bar", [wBar])]
        { plan_id := "pl", user_id := "u", date := 600, group_size := 2,
          max_venues := 3 } = Except.error e) ↔
      ([("cafe", [wCafe]), ("bar", [wBar])] :
        List (String × List Venue)).length < 3) ∧
    (3 ≤ ([("cafe", [wCafe]), ("bar", [wBar])] :
        List (String × List Venue)).length →
      ∃ plans, generate_multiple_plans distZero 3 picksZero shufflesId
        (fun _ => (fun l => l, fun l => l))
        [("cafe", [wCafe]), ("bar", [wBar])]
        { plan_id := "pl", user_id := "u", date := 600, group_size := 2,
          max_venues := 3 } = Except.ok plans) :=
  c2_validation_rejection distZero 3 picksZero shufflesId
    (fun _ => (fun l => l, fun l => l)) [("cafe", [wCafe]), ("bar", [wBar])]
    { plan_id := "pl", user_id := "u", date := 600, group_size := 2,
      max_venues := 3 }

/-! ## C6: personalization score bounds -/

lemma clamp_bounds (x : ℚ) : 0 ≤ min 1 (max 0 x) ∧ min 1 (max 0 x) ≤ 1 :=
  ⟨le_min (by norm_num) (le_max_left 0 x), min_le_left 1 _⟩

/-- C6: for every venue record, rating history (including empty),
type-preference map and optional user-preference record, the personalization
score returned by `_calculate_venue_score` lies in `[0, 1]` — the source
clamps the weighted sum with `min(1.0, max(0.0, total_score))`. -/
theorem c6_score_bounds (venue : Venue)
    (user_rating_history : List (String × ℚ))
    (type_preferences : List (String × ℚ)) (venue_type : String)
    (user_preferences : Option UserPrefs) :
    0 ≤ _calculate_venue_score venue user_rating_history type_preferences
        venue_type user_preferences ∧
    _calculate_venue_score venue user_rating_history type_preferences
        venue_type user_preferences ≤ 1 :=
  clamp_bounds _

/-! ## C7: the ≥ 4.0 rating filter -/

/-- C7: only historical ratings ≥ 4.0 influence scoring.  Appending a fresh
entry rated exactly 3.9 leaves the whole category-preference map unchanged
(the entry contributes nothing to the aggregation), while appending the same
entry rated exactly 4.0 enters the per-category aggregation: the rating sum
of the entry's category grows by 4 and its count by 1, so the 4.0 rating
contributes to that category's average. -/
theorem c7_rating_filter (h : List (String × ℚ))
    (vbt : List (String × List Venue)) (vid t : String)
    (hfresh : lookupRating h vid = none)
    (ht : venueIdToType vbt vid = some t) :
    (_calculate_type_preferences
        (_filter_highly_rated_venues (h ++ [(vid, 39/10)])) vbt =
      _calculate_type_preferences (_filter_highly_rated_venues h) vbt) ∧
    typeRatingSum vbt (_filter_highly_rated_venues (h ++ [(vid, 4)])) t =
      typeRatingSum vbt (_filter_highly_rated_venues h) t + 4 ∧
    typeRatingCount vbt (_filter_highly_rated_venues (h ++ [(vid, 4)])) t =
      typeRatingCount vbt (_filter_highly_rated_venues h) t + 1 := by
  have hfilter39 : _filter_highly_rated_venues (h ++ [(vid, 39/10)]) =
      _filter_highly_rated_venues h := by
    unfold _filter_highly_rated_venues
    rw [List.filter_append]
    have : List.filter (fun p => decide ((4:ℚ) ≤ p.2)) [(vid, 39/10)] = [] := by
      simp only [List.filter_cons, List.filter_nil]
      norm_num
    rw [this, List.append_nil]
  have hfilter4 : _filter_highly_rated_venues (h ++ [(vid, 4)]) =
      _filter_highly_rated_venues h ++ [(vid, 4)] := by
    unfold _filter_highly_rated_venues
    rw [List.filter_append]
    have : List.filter (fun p => decide ((4:ℚ) ≤ p.2)) [(vid, 4)] = [(vid, 4)] := by
      simp only [List.filter_cons, List.filter_nil]
      norm_num
    rw [this]
  refine ⟨by rw [hfilter39], ?_, ?_⟩
  · unfold typeRatingSum
    rw [hfilter4, List.filter_append]
    have hsel : List.filter (fun p => venueIdToType vbt p.1 == some t)
        [(vid, (4:ℚ))] = [(vid, 4)] := by
      simp [ht]
    rw [hsel, List.foldl_append]
    simp
  · unfold typeRatingCount
    rw [hfilter4, List.filter_append]
    have hsel : List.filter (fun p => venueIdToType vbt p.1 == some t)
        [(vid, (4:ℚ))] = [(vid, 4)] := by
      simp [ht]
    rw [hsel]
    simp

/-- C7 witness: the filtering theorem applied to a concrete history and a
pool in which venue id `c1` belongs to category `cafe`. -/
theorem c7_rating_filter_witness :
    (_calculate_type_preferences
        (_filter_highly_rated_venues ([("b1", 5)] ++ [("c1", 39/10)]))
        [("cafe", [wCafe])] =
      _calculate_type_preferences (_filter_highly_rated_venues [("b1", 5)])
        [("cafe", [wCafe])]) ∧
    typeRatingSum [("cafe", [wCafe])]
        (_filter_highly_rated_venues ([("b1", 5)] ++ [("c1", 4)])) "cafe" =
      typeRatingSum [("cafe", [wCafe])]
        (_filter_highly_rated_venues [("b1", 5)]) "cafe" + 4 ∧
    typeRatingCount [("cafe", [wCafe])]
        (_filter_highly_rated_venues ([("b1", 5)] ++ [("c1", 4)])) "cafe" =
      typeRatingCount [("cafe", [wCafe])]
        (_filter_highly_rated_venues [("b1", 5)]) "cafe" + 1 :=
  c7_rating_filter [("b1", 5)] [("cafe", [wCafe])] "c1" "cafe"
    (by decide) (by decide)

/-! ## C10: a low-rated venue scores like an unrated one -/

/-- In a history with duplicate-free keys (the Python dict guarantee), every
entry carrying the looked-up key has the looked-up rating. -/
lemma ratings_eq_of_nodup :
    ∀ (h : List (String × ℚ)) (k : String) (r : ℚ),
      (h.map Prod.fst).Nodup → lookupRating h k = some r →
      ∀ p ∈ h, p.1 = k → p.2 = r := by
  intro h
  induction h with
  | nil => intro k r _ _ p hp; cases hp
  | cons q tl ih =>
    intro k r hnd hl p hp hpk
    simp only [List.map_cons, List.nodup_cons] at hnd
    unfold lookupRating at hl
    rw [List.find?_cons] at hl
    cases hqb : (q.1 == k) with
    | true =>
      rw [hqb] at hl
      have hq2 : q.2 = r := by simpa using hl
      rcases List.mem_cons.mp hp with hpq | hptl
      · rw [hpq]; exact hq2
      · exfalso
        apply hnd.1
        have hqk : q.1 = k := by simpa using hqb
        rw [hqk, ← hpk]
        exact List.mem_map_of_mem Prod.fst hptl
    | false =>
      rw [hqb] at hl
      have hl2 : lookupRating tl k = some r := hl
      rcases List.mem_cons.mp hp with hpq | hptl
      · exfalso
        have : (q.1 == k) = true := by
          rw [hpq] at hpk
          simpa using hpk
        rw [hqb] at this
        cases this
      · exact ih k r hnd.2 hl2 p hptl hpk

/-- Removing an entry rated below 4 from a duplicate-free history does not
change the ≥ 4 filter's output at all. -/
lemma filter_highly_erase (h : List (String × ℚ)) (vid : String) (r : ℚ)
    (hnd : (h.map Prod.fst).Nodup) (hl : lookupRating h vid = some r)
    (hlt : r < 4) :
    _filter_highly_rated_venues h =
      _filter_highly_rated_venues (h.filter (fun p => !(p.1 == vid))) := by
  unfold _filter_highly_rated_venues
  rw [List.filter_filter]
  refine (List.filter_congr ?_)
  intro a ha
  by_cases hak : a.1 = vid
  · have har : a.2 = r := ratings_eq_of_nodup h vid r hnd hl a ha hak
    have h4 : decide ((4:ℚ) ≤ a.2) = false := by
      rw [har]
      simp only [decide_eq_false_iff_not, not_le]
      exact hlt
    rw [h4]
    simp
  · have hb : (a.1 == vid) = false := by simp [hak]
    rw [hb]
    simp

/-- The ≥ 4 filter drops the looked-up low-rated entry entirely, so the
filtered history contains no entry for that venue id. -/
lemma lookup_filter_highly_none (h : List (String × ℚ)) (vid : String) (r : ℚ)
    (hnd : (h.map Prod.fst).Nodup) (hl : lookupRating h vid = some r)
    (hlt : r < 4) :
    lookupRating (_filter_highly_rated_venues h) vid = none := by
  unfold lookupRating
  cases hfind : List.find? (fun p => p.1 == vid) (_filter_highly_rated_venues h) with
  | none => rfl
  | some x =>
    exfalso
    have hx := List.mem_of_find?_eq_some hfind
    have hxk : x.1 = vid := by simpa using List.find?_some hfind
    unfold _filter_highly_rated_venues at hx
    have hx1 := List.mem_of_mem_filter hx
    have hx2 : (4:ℚ) ≤ x.2 := by simpa using List.of_mem_filter hx
    have := ratings_eq_of_nodup h vid r hnd hl x hx1 hxk
    rw [this] at hx2
    exact absurd hx2 (not_le.mpr hlt)

/-- C10: a venue whose historical rating is strictly below 4.0 scores exactly
as if it were absent from the history: after the ≥ 4 filter its entry is gone
(so the historical component takes the neutral 0.5 path and the full 0.7
novelty bonus applies), and the full scoring pipeline yields the same value
on the history with the entry erased. -/
theorem c10_low_rated_equals_unrated (venue : Venue) (h : List (String × ℚ))
    (vbt : List (String × List Venue)) (venue_type : String)
    (user_preferences : Option UserPrefs) (r : ℚ)
    (hnd : (h.map Prod.fst).Nodup)
    (hl : lookupRating h venue.id = some r) (hlt : r < 4) :
    personalizedScore venue h vbt venue_type user_preferences =
      personalizedScore venue (h.filter (fun p => !(p.1 == venue.id))) vbt
        venue_type user_preferences ∧
    lookupRating (_filter_highly_rated_venues h) venue.id = none := by
  constructor
  · unfold personalizedScore
    rw [filter_highly_erase h venue.id r hnd hl hlt]
  · exact lookup_filter_highly_none h venue.id r hnd hl hlt

/-- C10 witness: a venue the user rated 1.0 scores identically to the same
venue with that history entry erased. -/
theorem c10_low_rated_equals_unrated_witness :
    (personalizedScore wCafe [("c1", 1)] [("cafe", [wCafe])] "cafe" none =
      personalizedScore wCafe
        (List.filter (fun p => !(p.1 == wCafe.id)) [("c1", 1)])
        [("cafe", [wCafe])] "cafe" none) ∧
    lookupRating (_filter_highly_rated_venues [("c1", 1)]) wCafe.id = none :=
  c10_low_rated_equals_unrated wCafe [("c1", 1)] [("cafe", [wCafe])] "cafe"
    none 1 (by decide) (by decide) (by norm_num)
